import Mathlib

/-!
Verification of the scheduling conflict engine and session-lifecycle
subsystem of the Calendar-Scheduler repository.

Shallow embedding conventions:
* Wall-clock times are minutes since midnight, as `Int` (the source keeps
  `datetime.time` values / `"HH:MM"` strings and compares them; comparison
  of well-formed `"HH:MM"` strings and of `time` values coincides with
  comparison of their minute counts, and the finder subtracts minute
  counts, which can go negative, hence `Int`).
* Calendar dates are day numbers (`Nat`) counted from a Monday epoch, so
  Python's `date.weekday()` (Monday = 0) is `d % 7`, `str(current)`
  equality is `Nat` equality, and `timedelta` arithmetic is `Nat`
  arithmetic.
* Database row order stands for the order of the corresponding stored
  list; the source's server-side `.order(...)` clauses are reproduced by
  a stable insertion sort (Python / PostgREST sorts are stable).
* Row ids (UUIDs in the source) are modelled by a `Nat` counter `next_id`
  held in the database state: each insert allocates a fresh id.
* Python functions that can raise return `PyResult`; an exception that
  propagates to the caller is the `raised` constructor.
* The clock (`date.today()`, `datetime.now()`) is passed explicitly, per
  the spec's injectable-clock requirement (§6).
-/

namespace CalSched

/-- Outcome of a Python call: normal return, or an exception propagating
to the caller. -/
inductive PyResult (α : Type) where
  | ok (a : α)
  | raised (e : String)
deriving DecidableEq, Repr

/- ───────────────────────── Conflict detector ─────────────────────────
   From `src/agents/tools/conflict_detector.py`.  The two database reads
   (`get_student_all_slots`, `get_student_availability`) are pure queries;
   their result lists are passed in as arguments. -/

/-- `_times_overlap` from `conflict_detector.py`: half-open overlap test. -/
def times_overlap (s1 e1 s2 e2 : Int) : Bool :=
  decide (s1 < e2) && decide (s2 < e1)

/-- A row of `get_student_all_slots`: a weekly schedule slot of one of the
student's active schedules, with the course labels attached. -/
structure StudentSlot where
  day_of_week : Nat
  start_time : Int
  end_time : Int
  course_code : String
  course_title : String
deriving DecidableEq, Repr

/-- A row of the `availability` table (also as returned, ordered, by
`get_student_availability`).  `preference` is `Option` because the source
reads it with `a.get("preference", "available")`. -/
structure Availability where
  student_id : Nat
  day_of_week : Nat
  start_time : Int
  end_time : Int
  preference : Option String
deriving DecidableEq, Repr

/-- One element of the `conflicts` list built by `detect_conflicts`. -/
structure ConflictEntry where
  course : String
  time : String
deriving DecidableEq, Repr

/-- The result record of `detect_conflicts` (the fields of the JSON it
returns; the echoed `proposed` block is omitted as no claim reads it). -/
structure DetectResult where
  verdict : String
  reason : String
  conflicts : List ConflictEntry
  within_availability : Bool
  preference : String
deriving DecidableEq, Repr

def day_names : List String :=
  ["Monday", "Tuesday", "Wednesday", "Thursday", "Friday", "Saturday", "Sunday"]

/-- The `conflicts` list of `detect_conflicts`: existing slots on the
proposed day whose time range overlaps the proposal. -/
def conflict_list (slots : List StudentSlot) (proposed_day : Nat)
    (proposed_s proposed_e : Int) : List ConflictEntry :=
  (slots.filter (fun s =>
      s.day_of_week == proposed_day &&
      times_overlap proposed_s proposed_e s.start_time s.end_time)).map
    (fun s => ⟨s.course_code ++ " " ++ s.course_title,
               toString s.start_time ++ "-" ++ toString s.end_time⟩)

/-- The first availability window on the proposed day that fully contains
the proposal (the source iterates `day_avail` in order and breaks). -/
def containing_window (avail : List Availability) (proposed_day : Nat)
    (proposed_s proposed_e : Int) : Option Availability :=
  (avail.filter (fun a => a.day_of_week == proposed_day)).find?
    (fun a => decide (a.start_time ≤ proposed_s) && decide (proposed_e ≤ a.end_time))

/-- `detect_conflicts` from `conflict_detector.py`.  `slots` is the value
of `get_student_all_slots(student_id)` and `avail` the value of
`get_student_availability(student_id)`.  For `proposed_day ∉ [0,6]` the
source would raise an `IndexError` on `day_names[proposed_day]`; the
claims only concern valid days, where `getD` agrees with indexing. -/
def detect_conflicts (slots : List StudentSlot) (avail : List Availability)
    (proposed_day : Nat) (proposed_s proposed_e : Int) : DetectResult :=
  let conflicts := conflict_list slots proposed_day proposed_s proposed_e
  let containing := containing_window avail proposed_day proposed_s proposed_e
  let is_within := containing.isSome
  let preference :=
    match containing with
    | some a => a.preference.getD "available"
    | none => "unavailable"
  let dname := day_names.getD proposed_day ""
  let vr : String × String :=
    if !conflicts.isEmpty then
      ("NO", "Hard conflict with existing course(s): " ++
        String.intercalate ", " (conflicts.map (fun c => c.course)))
    else if !is_within then
      ("NO", "Proposed time is outside the student's availability on " ++ dname)
    else if preference == "avoid" then
      ("MAYBE", "Student prefers to avoid this time slot on " ++ dname)
    else if preference == "preferred" then
      ("YES", "Slot is available and in a preferred time window on " ++ dname)
    else
      ("YES", "Slot is available on " ++ dname)
  { verdict := vr.1, reason := vr.2, conflicts := conflicts,
    within_availability := is_within, preference := preference }

/- ───────────────────────── Data model (src/db/queries.py) ─────────────

   The Supabase client wrapper `services/supabase_client.py` is code of
   this repository that is not under `src/` (only its importers are), so
   the backing store itself is modelled from the spec (§6): tables are
   lists of rows, inserts append a row with a freshly allocated id, and
   updates rewrite the rows matched by the `.eq` filter. -/

/-- A row of `schedule_slots` (the `location` column is never read by the
core logic and is omitted). -/
structure ScheduleSlot where
  id : Nat
  schedule_id : Nat
  day_of_week : Nat
  start_time : Int
  end_time : Int
deriving DecidableEq, Repr

/-- A row of `schedules`, restricted to the columns the session-lifecycle
code reads (`id`, `student_id`, `status`). -/
structure Schedule where
  id : Nat
  student_id : Nat
  status : String
deriving DecidableEq, Repr

/-- A row of `session_instances`. -/
structure SessionInstance where
  id : Nat
  schedule_id : Nat
  schedule_slot_id : Nat
  session_date : Nat
  start_time : Int
  end_time : Int
  status : String
  checked_in_at : Option Nat
  notes : Option String
  rescheduled_from : Option Nat
  rescheduled_to : Option Nat
deriving DecidableEq, Repr

/-- A row of `checkin_log`.  The free-form JSON `details` payload is a
list of key/value string pairs; numeric values are rendered with
`toString` where the source formats them into strings. -/
structure CheckinLogEntry where
  session_instance_id : Nat
  action : String
  performed_by : String
  details : List (String × String)
deriving DecidableEq, Repr

/-- The database state.  `schedule_slots`, `schedules` and `availability`
are only ever read by the operations modelled here; `session_instances`
and `checkin_log` are mutated; `next_id` allocates row ids. -/
structure DB where
  schedule_slots : List ScheduleSlot
  schedules : List Schedule
  availability : List Availability
  session_instances : List SessionInstance
  checkin_log : List CheckinLogEntry
  next_id : Nat
deriving DecidableEq, Repr

/-- A database with the given static tables and no session instances or
log entries yet. -/
def initDB (slots : List ScheduleSlot) (scheds : List Schedule)
    (avail : List Availability) : DB :=
  ⟨slots, scheds, avail, [], [], 0⟩

/- Stable ascending sort, modelling Python's stable `sort` and the
PostgREST `.order(...)` clauses.  `lt` is the strict key comparison;
elements whose keys tie keep their original relative order. -/

def insertSorted (lt : α → α → Bool) (x : α) : List α → List α
  | [] => [x]
  | y :: ys => if lt x y then x :: y :: ys else y :: insertSorted lt x ys

def stableSort (lt : α → α → Bool) (l : List α) : List α :=
  l.foldl (fun acc x => insertSorted lt x acc) []

/-- `get_schedule_slots`: slots of one schedule, ordered by
(day_of_week, start_time). -/
def get_schedule_slots (db : DB) (schedule_id : Nat) : List ScheduleSlot :=
  stableSort
    (fun a b => a.day_of_week < b.day_of_week ||
      (a.day_of_week == b.day_of_week && decide (a.start_time < b.start_time)))
    (db.schedule_slots.filter (fun s => s.schedule_id == schedule_id))

/-- `get_student_schedules(student_id, status="active")`: the student's
active schedules (the join of course data is not modelled; no claim
reads it). -/
def active_schedules (db : DB) (student_id : Nat) : List Schedule :=
  db.schedules.filter (fun s => s.student_id == student_id && s.status == "active")

/-- `get_student_availability`: the student's availability rows ordered by
(day_of_week, start_time). -/
def get_student_availability (db : DB) (student_id : Nat) : List Availability :=
  stableSort
    (fun a b => a.day_of_week < b.day_of_week ||
      (a.day_of_week == b.day_of_week && decide (a.start_time < b.start_time)))
    (db.availability.filter (fun a => a.student_id == student_id))

/-- `get_sessions_for_range`: session instances of the student's active
schedules with `start_date ≤ session_date ≤ end_date`, gathered per
schedule and ordered by (session_date, start_time) within each schedule
(course labels attached by the source are not modelled). -/
def get_sessions_for_range (db : DB) (student_id : Nat)
    (start_date end_date : Nat) : List SessionInstance :=
  (active_schedules db student_id).flatMap (fun sch =>
    stableSort
      (fun a b => a.session_date < b.session_date ||
        (a.session_date == b.session_date && decide (a.start_time < b.start_time)))
      (db.session_instances.filter (fun i =>
        i.schedule_id == sch.id &&
        decide (start_date ≤ i.session_date) && decide (i.session_date ≤ end_date))))

/- ───────────── Session instance expansion (generate_session_instances) ── -/

/-- The row payload built for each (slot, week) pair before the upsert
(the dict literal at queries.py:244). -/
structure InstancePayload where
  schedule_id : Nat
  schedule_slot_id : Nat
  session_date : Nat
  start_time : Int
  end_time : Int
deriving DecidableEq, Repr

/-- Fuel-indexed body of the `while current <= end_date` walk; the fuel
`endD + 1 - current` bounds the number of iterations (the date advances
by 7 each round). -/
def weeklyDatesGo : Nat → Nat → Nat → List Nat
  | 0, _, _ => []
  | fuel + 1, current, endD =>
    if current ≤ endD then current :: weeklyDatesGo fuel (current + 7) endD
    else []

/-- The dates `current, current+7, current+14, …` up to and including
`endD`. -/
def weeklyDates (current endD : Nat) : List Nat :=
  weeklyDatesGo (endD + 1 - current) current endD

/-- The composite upsert key of `session_instances`:
`on_conflict="schedule_slot_id,session_date"` (queries.py:257). -/
def key_matches (p : InstancePayload) (i : SessionInstance) : Bool :=
  i.schedule_slot_id == p.schedule_slot_id && i.session_date == p.session_date

/-- Modelled from the spec: the store behind the missing
`services/supabase_client.py` wrapper provides an upsert keyed on the
composite `(schedule_slot_id, session_date)` (queries.py:256,
`on_conflict="schedule_slot_id,session_date"`); per §4.3/§6 a row whose
key already exists is left untouched (not duplicated, not reset) and the
call returns the full set of rows touched, created or already present. -/
def upsert_row (db : DB) (p : InstancePayload) : SessionInstance × DB :=
  match db.session_instances.find? (key_matches p) with
  | some i => (i, db)
  | none =>
      let inst : SessionInstance :=
        ⟨db.next_id, p.schedule_id, p.schedule_slot_id, p.session_date,
         p.start_time, p.end_time, "pending", none, none, none, none⟩
      (inst, { db with session_instances := db.session_instances ++ [inst],
                       next_id := db.next_id + 1 })

/-- Modelled from the spec: batch upsert of the payload rows, processed in
order (see `upsert_row`). -/
def upsert_session_instances : DB → List InstancePayload → List SessionInstance × DB
  | db, [] => ([], db)
  | db, p :: ps =>
      let (i, db1) := upsert_row db p
      let (is, db2) := upsert_session_instances db1 ps
      (i :: is, db2)

/-- The payload rows `generate_session_instances` builds: for each slot of
the schedule, one row per week from the Monday of `start_date`'s week,
keeping dates in `[start_date, end_date]`. -/
def generate_payloads (db : DB) (schedule_id : Nat) (start_date end_date : Nat) :
    List InstancePayload :=
  let week_start := start_date - start_date % 7
  (get_schedule_slots db schedule_id).flatMap (fun slot =>
    ((weeklyDates (week_start + slot.day_of_week) end_date).filter
        (fun d => decide (start_date ≤ d))).map
      (fun d => ⟨schedule_id, slot.id, d, slot.start_time, slot.end_time⟩))

/-- `generate_session_instances` from `queries.py`: expand the weekly
template slots of a schedule into dated pending session instances and
upsert them by `(schedule_slot_id, session_date)`. -/
def generate_session_instances (db : DB) (schedule_id : Nat)
    (start_date end_date : Nat) : List SessionInstance × DB :=
  if (get_schedule_slots db schedule_id).isEmpty then ([], db)
  else
    let payloads := generate_payloads db schedule_id start_date end_date
    if payloads.isEmpty then ([], db)
    else upsert_session_instances db payloads

/- ───────────────────────── Check-in ───────────────────────── -/

/-- The `details` dict of the `check_in` log entry:
`{"notes": notes} if notes else {}` (an empty string is falsy). -/
def checkInDetails : Option String → List (String × String)
  | some n => if n = "" then [] else [("notes", n)]
  | none => []

/-- `check_in_session` from `queries.py`: unconditionally set
`status="completed"`, record the check-in timestamp and the notes on
every row matching the id, then append a `check_in` log entry
performed_by=parent.  Returns the first updated row, `none` when no row
matched (the source returns `{}` then). -/
def check_in_session (db : DB) (session_id : Nat) (notes : Option String)
    (now : Nat) : Option SessionInstance × DB :=
  let updated := db.session_instances.map (fun i =>
    if i.id == session_id then
      { i with status := "completed", checked_in_at := some now, notes := notes }
    else i)
  let db2 : DB := { db with
    session_instances := updated,
    checkin_log := db.checkin_log ++
      [⟨session_id, "check_in", "parent", checkInDetails notes⟩] }
  (updated.find? (fun i => i.id == session_id), db2)

/- ───────────────────────── Reschedule ───────────────────────── -/

/-- The `{"error": "Session not found"}` sentinel dict. -/
structure ErrDict where
  error : String
deriving DecidableEq, Repr

/-- The row update `reschedule_session` applies to the old instance:
`status="rescheduled"`, `rescheduled_to` pointing at the freshly inserted
id, on every row matching the missed id. -/
def resched_upd (missed_session_id new_id : Nat) (i : SessionInstance) :
    SessionInstance :=
  if i.id == missed_session_id then
    { i with status := "rescheduled", rescheduled_to := some new_id }
  else i

/-- `reschedule_session` from `queries.py`.  When the source instance is
missing it returns the error dict (it does not raise).  Otherwise it
inserts a fresh pending instance carrying `rescheduled_from`, then
updates the old instance to `status="rescheduled"` with `rescheduled_to`
pointing at the new id, then logs a `reschedule` entry
performed_by=parent, and returns the new instance. -/
def reschedule_session (db : DB) (missed_session_id : Nat) (new_date : Nat)
    (new_start new_end : Int) : PyResult (ErrDict ⊕ SessionInstance) × DB :=
  match db.session_instances.find? (fun i => i.id == missed_session_id) with
  | none => (PyResult.ok (Sum.inl ⟨"Session not found"⟩), db)
  | some missed =>
      let new_instance : SessionInstance :=
        ⟨db.next_id, missed.schedule_id, missed.schedule_slot_id, new_date,
         new_start, new_end, "pending", none, none, some missed_session_id, none⟩
      let db1 : DB := { db with
        session_instances := db.session_instances ++ [new_instance],
        next_id := db.next_id + 1 }
      let db2 : DB := { db1 with
        session_instances :=
          db1.session_instances.map (resched_upd missed_session_id new_instance.id) }
      let db3 : DB := { db2 with
        checkin_log := db2.checkin_log ++
          [⟨missed_session_id, "reschedule", "parent",
            [("new_session_id", toString new_instance.id),
             ("new_date", toString new_date)]⟩] }
      (PyResult.ok (Sum.inr new_instance), db3)

/- ───────────────── Reschedule finder (find_available_reschedule_slots) ── -/

/-- One candidate slot returned by the finder.  `same_dow` reproduces the
source's `dow == missed.get("session_date", "")`, which compares an `int`
weekday with a date *string* and is therefore always `False`. -/
structure Candidate where
  date : Nat
  day_name : String
  start_time : Int
  end_time : Int
  preference : String
  same_dow : Bool
deriving DecidableEq, Repr

def short_day_names : List String :=
  ["Mon", "Tue", "Wed", "Thu", "Fri", "Sat", "Sun"]

/-- The sort rank of a preference tag
(`pref_order = {"preferred": 0, "available": 1, "avoid": 2}`, default 9). -/
def pref_rank (p : String) : Nat :=
  if p = "preferred" then 0 else if p = "available" then 1
  else if p = "avoid" then 2 else 9

/-- The per-window body of the finder's date loop: keep the window when it
is wide enough, place the session at the window start, and reject it when
it overlaps an instance already booked that day. -/
def candidate_for_window (day_existing : List SessionInstance) (current : Nat)
    (dow : Nat) (duration_min : Int) (window : Availability) : Option Candidate :=
  if decide (window.end_time - window.start_time < duration_min) then none
  else
    let candidate_start := window.start_time
    let candidate_end := candidate_start + duration_min
    let conflict := day_existing.any (fun ex =>
      decide (candidate_start < ex.end_time) && decide (ex.start_time < candidate_end))
    if !conflict && decide (candidate_end ≤ window.end_time) then
      some ⟨current, short_day_names.getD dow "", candidate_start, candidate_end,
            window.preference.getD "available", false⟩
    else none

/-- `find_available_reschedule_slots` from `queries.py`: up to five
conflict-free windows in `[today+1, today+days_ahead]` that can hold the
missed session's duration, placed at the window start, sorted by
preference rank then date.  Returns `[]` when the session id is unknown.
`today` is the injected clock. -/
def find_available_reschedule_slots (db : DB) (student_id : Nat)
    (missed_session_id : Nat) (days_ahead : Nat) (today : Nat) : List Candidate :=
  match db.session_instances.find? (fun i => i.id == missed_session_id) with
  | none => []
  | some missed =>
      let duration_min : Int := missed.end_time - missed.start_time
      let tomorrow := today + 1
      let end_search := today + days_ahead
      let avail := get_student_availability db student_id
      let existing := get_sessions_for_range db student_id tomorrow end_search
      let candidates :=
        (List.range' tomorrow (end_search + 1 - tomorrow)).flatMap (fun current =>
          let dow := current % 7
          let day_existing := existing.filter (fun e => e.session_date == current)
          (avail.filter (fun a => a.day_of_week == dow)).filterMap
            (candidate_for_window day_existing current dow duration_min))
      (stableSort
        (fun a b => pref_rank a.preference < pref_rank b.preference ||
          (pref_rank a.preference == pref_rank b.preference && a.date < b.date))
        candidates).take 5

/- ───────────────── Auto-miss sweep (mark_missed_sessions) ───────────── -/

/-- One element of the `rescheduled` list returned by the sweep. -/
structure ReschedPair where
  missed_session : SessionInstance
  new_date : Nat
  new_start : Int
  new_end : Int
  new_session_id : Nat
deriving DecidableEq, Repr

/-- The `{"missed": [...], "rescheduled": [...]}` return of the sweep. -/
structure SweepResult where
  missed : List SessionInstance
  rescheduled : List ReschedPair
deriving DecidableEq, Repr

/-- Loop state of the sweep: the evolving database plus the two result
lists being accumulated. -/
structure SweepAcc where
  db : DB
  missed : List SessionInstance
  rescheduled : List ReschedPair
deriving DecidableEq, Repr

/-- The overdue query of `mark_missed_sessions`: pending instances dated
strictly before `today`, scoped to the student's active schedules when a
student id is given (a student with no active schedules yields the empty
list, matching the source's early return). -/
def overdue_pending (db : DB) (student_id : Option Nat) (today : Nat) :
    List SessionInstance :=
  let base := db.session_instances.filter (fun i =>
    i.status == "pending" && decide (i.session_date < today))
  match student_id with
  | none => base
  | some sid =>
      let schedule_ids := (active_schedules db sid).map (fun s => s.id)
      if schedule_ids.isEmpty then []
      else base.filter (fun i => schedule_ids.contains i.schedule_id)

/-- The first half of the sweep's loop body: set the instance's status to
`missed` and append the `auto_miss` log entry performed_by=system. -/
def mark_one_missed (db : DB) (session : SessionInstance) : DB :=
  { db with
    session_instances := db.session_instances.map (fun i =>
      if i.id == session.id then { i with status := "missed" } else i),
    checkin_log := db.checkin_log ++ [⟨session.id, "auto_miss", "system", []⟩] }

/-- The loop body of `mark_missed_sessions`, generic in the reschedule
finder so that the `try/except` around the reschedule attempt can be
exercised with a throwing finder: mark the instance missed and log it;
then, only when `auto_reschedule` is set *and* a student id was supplied
(queries.py:423, `if auto_reschedule and student_id:`), attempt the
reschedule inside a `try` whose `except Exception: pass` swallows any
raise.  On success a second log entry action=reschedule,
performed_by=system with `auto: true` in its details is appended. -/
def sweep_step (finder : DB → Nat → PyResult (List Candidate))
    (student_id : Option Nat) (auto_reschedule : Bool)
    (acc : SweepAcc) (session : SessionInstance) : SweepAcc :=
  let db2 := mark_one_missed acc.db session
  let s' := { session with status := "missed" }
  let missed' := acc.missed ++ [s']
  if auto_reschedule && student_id.isSome then
    match finder db2 session.id with
    | PyResult.raised _ => ⟨db2, missed', acc.rescheduled⟩
    | PyResult.ok [] => ⟨db2, missed', acc.rescheduled⟩
    | PyResult.ok (best :: _) =>
        match reschedule_session db2 session.id best.date best.start_time best.end_time with
        | (PyResult.ok (Sum.inr new_inst), db3) =>
            let db4 : DB := { db3 with
              checkin_log := db3.checkin_log ++
                [⟨session.id, "reschedule", "system",
                  [("auto", "true"), ("new_date", toString best.date),
                   ("new_time", toString best.start_time ++ "–" ++ toString best.end_time)]⟩] }
            ⟨db4, missed',
             acc.rescheduled ++ [⟨s', best.date, best.start_time, best.end_time, new_inst.id⟩]⟩
        | (PyResult.ok (Sum.inl _), db3) => ⟨db3, missed', acc.rescheduled⟩
        | (PyResult.raised _, db3) => ⟨db3, missed', acc.rescheduled⟩
  else ⟨db2, missed', acc.rescheduled⟩

/-- `mark_missed_sessions` with an injected finder (see `sweep_step`).
The overdue list is snapshotted up front, as in the source, and the loop
threads the database through `sweep_step`. -/
def mark_missed_sessions_with (finder : DB → Nat → PyResult (List Candidate))
    (db : DB) (student_id : Option Nat) (auto_reschedule : Bool) (today : Nat) :
    SweepResult × DB :=
  let acc := (overdue_pending db student_id today).foldl
    (sweep_step finder student_id auto_reschedule) ⟨db, [], []⟩
  (⟨acc.missed, acc.rescheduled⟩, acc.db)

/-- The finder `mark_missed_sessions` actually calls:
`find_available_reschedule_slots(student_id, session["id"], days_ahead=7)`
with the same clock.  (It is only reached when a student id was supplied;
the `none` arm is the unreachable default.) -/
def auto_finder (student_id : Option Nat) (today : Nat) :
    DB → Nat → PyResult (List Candidate) :=
  fun db msid => PyResult.ok
    (match student_id with
     | some sid => find_available_reschedule_slots db sid msid 7 today
     | none => [])

/-- `mark_missed_sessions` from `queries.py` (clock injected via `today`). -/
def mark_missed_sessions (db : DB) (student_id : Option Nat)
    (auto_reschedule : Bool) (today : Nat) : SweepResult × DB :=
  mark_missed_sessions_with (auto_finder student_id today) db student_id
    auto_reschedule today

/- ───────────────────────── Operation sequences ─────────────────────────
   For the reschedule-link invariant the four mutating operations are
   packaged as an inductive of operation requests replayed against a
   database. -/

/-- A request against the session-lifecycle subsystem. -/
inductive Op where
  | gen (schedule_id start_date end_date : Nat)
  | checkIn (session_id : Nat) (notes : Option String) (now : Nat)
  | markMissed (student_id : Option Nat) (auto_reschedule : Bool) (today : Nat)
  | resched (missed_session_id new_date : Nat) (new_start new_end : Int)
deriving DecidableEq, Repr

/-- Apply one operation to the database. -/
def stepOp (db : DB) : Op → DB
  | Op.gen sid s e => (generate_session_instances db sid s e).2
  | Op.checkIn sid notes now => (check_in_session db sid notes now).2
  | Op.markMissed st auto today => (mark_missed_sessions db st auto today).2
  | Op.resched mid d s e => (reschedule_session db mid d s e).2

/-- Replay a list of operations. -/
def reach (db : DB) (ops : List Op) : DB :=
  ops.foldl stepOp db

/- ───────────────────────── Specification predicates ─────────────────── -/

/-- A row with the payload's composite key is present. -/
def key_present (l : List SessionInstance) (p : InstancePayload) : Prop :=
  ∃ i ∈ l, key_matches p i = true

/-- No two rows share the composite upsert key. -/
def keys_nodup (l : List SessionInstance) : Prop :=
  l.Pairwise (fun a b =>
    ¬(a.schedule_slot_id = b.schedule_slot_id ∧ a.session_date = b.session_date))

/-- Every instance id is below the allocator. -/
def ids_below (l : List SessionInstance) (n : Nat) : Prop :=
  ∀ i ∈ l, i.id < n

/-- Instance ids are pairwise distinct. -/
def ids_nodup (l : List SessionInstance) : Prop :=
  (l.map (fun i => i.id)).Nodup

/-- Every `rescheduled_to` link points forward: at a strictly larger id,
held by an instance in the table whose `rescheduled_from` points back.
Ids strictly increase along a chain of `rescheduled_to` links, so no
chain can revisit an instance. -/
def links_forward (l : List SessionInstance) : Prop :=
  ∀ i ∈ l, ∀ t, i.rescheduled_to = some t →
    i.id < t ∧ ∃ j ∈ l, j.id = t ∧ j.rescheduled_from = some i.id

/-- Every `rescheduled_from` back-reference points at a strictly smaller
id (the replaced instance was created earlier). -/
def from_backward (l : List SessionInstance) : Prop :=
  ∀ i ∈ l, ∀ f, i.rescheduled_from = some f → f < i.id

/-- The reschedule-link invariant of the session-instance table. -/
def ReschedInv (db : DB) : Prop :=
  ids_below db.session_instances db.next_id ∧
  ids_nodup db.session_instances ∧
  links_forward db.session_instances ∧
  from_backward db.session_instances

/- ═════════════════════════ Supporting lemmas ═════════════════════════ -/

/-- The filter predicate of `conflict_list`, unfolded to a proposition. -/
lemma conflict_list_eq_nil_iff (slots : List StudentSlot) (d : Nat) (pS pE : Int) :
    conflict_list slots d pS pE = [] ↔
      ∀ s ∈ slots, s.day_of_week = d →
        times_overlap pS pE s.start_time s.end_time = false := by
  unfold conflict_list
  rw [List.map_eq_nil_iff, List.filter_eq_nil_iff]
  constructor
  · intro h s hs hd
    have := h s hs
    simp only [Bool.and_eq_true, beq_iff_eq, not_and] at this
    exact Bool.eq_false_iff.mpr (this hd)
  · intro h s hs
    simp only [Bool.and_eq_true, beq_iff_eq, not_and]
    intro hd
    exact Bool.eq_false_iff.mp (h s hs hd)

lemma detect_conflicts_conflicts_def (slots : List StudentSlot)
    (avail : List Availability) (d : Nat) (pS pE : Int) :
    (detect_conflicts slots avail d pS pE).conflicts = conflict_list slots d pS pE := rfl

lemma detect_conflicts_within_def (slots : List StudentSlot)
    (avail : List Availability) (d : Nat) (pS pE : Int) :
    (detect_conflicts slots avail d pS pE).within_availability =
      (containing_window avail d pS pE).isSome := rfl

lemma containing_window_isSome_iff (avail : List Availability) (d : Nat)
    (pS pE : Int) :
    (containing_window avail d pS pE).isSome = true ↔
      ∃ a ∈ avail, a.day_of_week = d ∧ a.start_time ≤ pS ∧ pE ≤ a.end_time := by
  unfold containing_window
  rw [List.find?_isSome]
  constructor
  · rintro ⟨a, ha, hp⟩
    rw [List.mem_filter] at ha
    refine ⟨a, ha.1, by simpa using ha.2, ?_⟩
    simpa [Bool.and_eq_true, decide_eq_true_iff] using hp
  · rintro ⟨a, ha, hd, h1, h2⟩
    refine ⟨a, List.mem_filter.mpr ⟨ha, by simpa using hd⟩, ?_⟩
    simp [Bool.and_eq_true, decide_eq_true_iff, h1, h2]

/-- The verdict and reason of `detect_conflicts` when a hard conflict
exists. -/
lemma detect_conflicts_verdict_of_conflict (slots : List StudentSlot)
    (avail : List Availability) (d : Nat) (pS pE : Int)
    (h : conflict_list slots d pS pE ≠ []) :
    (detect_conflicts slots avail d pS pE).verdict = "NO" ∧
    (detect_conflicts slots avail d pS pE).reason =
      "Hard conflict with existing course(s): " ++
        String.intercalate ", "
          ((conflict_list slots d pS pE).map (fun c => c.course)) := by
  have hne : (conflict_list slots d pS pE).isEmpty = false := by
    simpa [List.isEmpty_iff] using h
  unfold detect_conflicts
  simp [hne]

/- ───────────── Upsert lemmas (for the idempotent-expansion claim) ───── -/

lemma key_present_append_left {l t : List SessionInstance} {p : InstancePayload}
    (h : key_present l p) : key_present (l ++ t) p := by
  obtain ⟨i, hi, hk⟩ := h
  exact ⟨i, List.mem_append_left t hi, hk⟩

lemma upsert_row_statics (db : DB) (p : InstancePayload) :
    (upsert_row db p).2.schedule_slots = db.schedule_slots ∧
    (upsert_row db p).2.schedules = db.schedules ∧
    (upsert_row db p).2.availability = db.availability := by
  unfold upsert_row
  cases h : db.session_instances.find? (key_matches p) <;> simp

lemma upsert_row_instances_append (db : DB) (p : InstancePayload) :
    ∃ t, (upsert_row db p).2.session_instances = db.session_instances ++ t := by
  unfold upsert_row
  cases h : db.session_instances.find? (key_matches p)
  · exact ⟨_, rfl⟩
  · exact ⟨[], by simp⟩

lemma upsert_row_key_present (db : DB) (p : InstancePayload) :
    key_present (upsert_row db p).2.session_instances p := by
  unfold upsert_row
  cases h : db.session_instances.find? (key_matches p) with
  | none =>
      refine ⟨_, List.mem_append_right _ (List.mem_singleton.mpr rfl), ?_⟩
      simp [key_matches]
  | some i =>
      exact ⟨i, List.mem_of_find?_eq_some h, List.find?_some h⟩

lemma upsert_row_noop {db : DB} {p : InstancePayload}
    (h : key_present db.session_instances p) :
    ∃ i, db.session_instances.find? (key_matches p) = some i ∧
      upsert_row db p = (i, db) := by
  obtain ⟨j, hj, hk⟩ := h
  have : (db.session_instances.find? (key_matches p)).isSome = true :=
    List.find?_isSome.mpr ⟨j, hj, hk⟩
  obtain ⟨i, hi⟩ := Option.isSome_iff_exists.mp this
  refine ⟨i, hi, ?_⟩
  unfold upsert_row
  rw [hi]

lemma upsert_many_statics (db : DB) (ps : List InstancePayload) :
    (upsert_session_instances db ps).2.schedule_slots = db.schedule_slots ∧
    (upsert_session_instances db ps).2.schedules = db.schedules ∧
    (upsert_session_instances db ps).2.availability = db.availability := by
  induction ps generalizing db with
  | nil => exact ⟨rfl, rfl, rfl⟩
  | cons p ps ih =>
      have h1 := upsert_row_statics db p
      have h2 := ih (upsert_row db p).2
      simp only [upsert_session_instances]
      exact ⟨h2.1.trans h1.1, h2.2.1.trans h1.2.1, h2.2.2.trans h1.2.2⟩

lemma upsert_many_instances_append (db : DB) (ps : List InstancePayload) :
    ∃ t, (upsert_session_instances db ps).2.session_instances =
      db.session_instances ++ t := by
  induction ps generalizing db with
  | nil => exact ⟨[], by simp [upsert_session_instances]⟩
  | cons p ps ih =>
      obtain ⟨t1, h1⟩ := upsert_row_instances_append db p
      obtain ⟨t2, h2⟩ := ih (upsert_row db p).2
      refine ⟨t1 ++ t2, ?_⟩
      simp only [upsert_session_instances]
      rw [h2, h1, List.append_assoc]

lemma upsert_many_all_present (db : DB) (ps : List InstancePayload) :
    ∀ p ∈ ps, key_present (upsert_session_instances db ps).2.session_instances p := by
  induction ps generalizing db with
  | nil => intro p hp; cases hp
  | cons q ps ih =>
      intro p hp
      rcases List.mem_cons.mp hp with h | h
      · subst h
        obtain ⟨t, ht⟩ := upsert_many_instances_append (upsert_row db p).2 ps
        simp only [upsert_session_instances]
        rw [ht]
        exact key_present_append_left (upsert_row_key_present db p)
      · simpa only [upsert_session_instances] using ih (upsert_row db q).2 p h

lemma upsert_many_db_noop {db : DB} {ps : List InstancePayload}
    (h : ∀ p ∈ ps, key_present db.session_instances p) :
    (upsert_session_instances db ps).2 = db := by
  induction ps with
  | nil => rfl
  | cons p ps ih =>
      obtain ⟨i, _, hrow⟩ := upsert_row_noop (h p (List.mem_cons_self p ps))
      simp only [upsert_session_instances, hrow]
      exact ih (fun q hq => h q (List.mem_cons_of_mem p hq))

lemma find?_append_left {l t : List SessionInstance} {q : SessionInstance → Bool}
    {i : SessionInstance} (h : l.find? q = some i) : (l ++ t).find? q = some i := by
  rw [List.find?_append, h]
  rfl

/-- Each returned row is the (first) row of the final database carrying
that payload's composite key. -/
lemma upsert_many_results (db : DB) (ps : List InstancePayload) :
    List.Forall₂
      (fun p r =>
        ((upsert_session_instances db ps).2.session_instances).find? (key_matches p)
          = some r)
      ps (upsert_session_instances db ps).1 := by
  induction ps generalizing db with
  | nil => exact List.Forall₂.nil
  | cons p ps ih =>
      have hrowapp := upsert_row_instances_append db p
      obtain ⟨t2, h2⟩ := upsert_many_instances_append (upsert_row db p).2 ps
      have hhead : ((upsert_session_instances db (p :: ps)).2.session_instances).find?
          (key_matches p) = some (upsert_row db p).1 := by
        simp only [upsert_session_instances]
        rw [h2]
        apply find?_append_left
        show ((upsert_row db p).2.session_instances).find? (key_matches p)
          = some (upsert_row db p).1
        unfold upsert_row
        cases hf : db.session_instances.find? (key_matches p) with
        | none =>
            simp only
            apply List.find?_append.trans
            rw [hf]
            simp [key_matches]
        | some i => simpa using hf
      have htail := ih (upsert_row db p).2
      simp only [upsert_session_instances]
      exact List.Forall₂.cons hhead htail

lemma forall₂_find_unique {f : InstancePayload → Option SessionInstance}
    {ps : List InstancePayload} {r1 r2 : List SessionInstance}
    (h1 : List.Forall₂ (fun p r => f p = some r) ps r1)
    (h2 : List.Forall₂ (fun p r => f p = some r) ps r2) : r1 = r2 := by
  induction h1 generalizing r2 with
  | nil => cases h2; rfl
  | cons hp hps ih =>
      cases h2 with
      | cons hq hqs =>
          have := ih hqs
          subst this
          congr 1
          have := hp.symm.trans hq
          exact Option.some.inj this

lemma upsert_row_keys_nodup {db : DB} {p : InstancePayload}
    (h : keys_nodup db.session_instances) :
    keys_nodup (upsert_row db p).2.session_instances := by
  unfold upsert_row
  cases hf : db.session_instances.find? (key_matches p) with
  | some i => exact h
  | none =>
      simp only
      unfold keys_nodup
      rw [List.pairwise_append]
      refine ⟨h, List.pairwise_singleton _ _, ?_⟩
      intro a ha b hb
      rw [List.mem_singleton] at hb
      subst hb
      have := List.find?_eq_none.mp hf a ha
      simp only [key_matches, Bool.and_eq_true, beq_iff_eq, not_and] at this
      rintro ⟨h1, h2⟩
      exact this (by simpa using h1) (by simpa using h2)

lemma upsert_many_keys_nodup {db : DB} {ps : List InstancePayload}
    (h : keys_nodup db.session_instances) :
    keys_nodup (upsert_session_instances db ps).2.session_instances := by
  induction ps generalizing db with
  | nil => exact h
  | cons p ps ih =>
      simp only [upsert_session_instances]
      exact ih (upsert_row_keys_nodup h)

/-- `generate_payloads` and `get_schedule_slots` only read the static
`schedule_slots` table. -/
lemma generate_payloads_congr {db db' : DB}
    (h : db'.schedule_slots = db.schedule_slots)
    (schedule_id start_date end_date : Nat) :
    generate_payloads db' schedule_id start_date end_date =
      generate_payloads db schedule_id start_date end_date ∧
    get_schedule_slots db' schedule_id = get_schedule_slots db schedule_id := by
  unfold generate_payloads get_schedule_slots
  rw [h]
  exact ⟨rfl, rfl⟩

/- ═════════════════════════ Claim theorems ═════════════════════════ -/

/-- C6 counterexample: the claim states that zero-length intervals overlap
nothing, but the half-open formula reports that the zero-length interval
[10:00,10:00) overlaps [9:00,11:00). -/
theorem times_overlap_zero_length_cex :
    times_overlap 600 600 540 660 = true := by decide

/-- C6 (amended): `overlaps` returns true iff `startA < endB ∧ startB <
endA`; back-to-back intervals (`endA = startB`) never overlap; a
zero-length interval overlaps B iff it lies strictly inside B (so it does
not overlap back-to-back or disjoint intervals, but it does overlap an
interval that strictly contains it); and [9:00,10:00) vs [9:30,10:30)
overlaps. -/
theorem times_overlap_boundary (sA eA sB eB : Int) :
    (times_overlap sA eA sB eB = true ↔ sA < eB ∧ sB < eA) ∧
    (eA = sB → times_overlap sA eA sB eB = false) ∧
    (sA = eA → (times_overlap sA eA sB eB = true ↔ sB < sA ∧ sA < eB)) ∧
    times_overlap 540 600 570 630 = true := by
  refine ⟨?_, ?_, ?_, by decide⟩
  · simp [times_overlap, Bool.and_eq_true, decide_eq_true_iff]
  · intro h
    subst h
    simp [times_overlap]
  · intro h
    subst h
    simp [times_overlap, Bool.and_eq_true, decide_eq_true_iff, and_comm]

/-- Witness for `times_overlap_boundary`: the back-to-back pair
[9:00,10:00) and [10:00,11:00) does not overlap. -/
theorem times_overlap_boundary_witness :
    times_overlap 540 600 600 660 = false :=
  (times_overlap_boundary 540 600 600 660).2.1 rfl

/-- C7: the proposal counts as within availability iff some availability
window on the proposed day fully contains it; a proposal that merely
partially overlaps every window is not within availability. -/
theorem detect_conflicts_within_availability_iff (slots : List StudentSlot)
    (avail : List Availability) (d : Nat) (pS pE : Int) :
    ((detect_conflicts slots avail d pS pE).within_availability = true ↔
      ∃ a ∈ avail, a.day_of_week = d ∧ a.start_time ≤ pS ∧ pE ≤ a.end_time) ∧
    ((∀ a ∈ avail, a.day_of_week = d → ¬(a.start_time ≤ pS ∧ pE ≤ a.end_time)) →
      (detect_conflicts slots avail d pS pE).within_availability = false) := by
  constructor
  · rw [detect_conflicts_within_def]
    exact containing_window_isSome_iff avail d pS pE
  · intro h
    rw [detect_conflicts_within_def]
    rw [Bool.eq_false_iff]
    intro hs
    obtain ⟨a, ha, hd, hc⟩ := (containing_window_isSome_iff avail d pS pE).mp hs
    exact h a ha hd hc

/-- Witness for `detect_conflicts_within_availability_iff` at the spec's
example: proposal [9:00,10:30) against the single window [9:00,10:00)
(Monday) is not within availability despite overlapping it. -/
theorem detect_conflicts_within_availability_witness :
    (detect_conflicts [] [⟨5, 0, 540, 600, some "available"⟩] 0 540 630).within_availability
      = false :=
  (detect_conflicts_within_availability_iff [] [⟨5, 0, 540, 600, some "available"⟩]
    0 540 630).2 (by decide)

/-- C8 counterexample: the claim states that an inverted interval
(start > end) overlaps nothing, but proposing Monday 10:00→9:00 against
an existing Monday slot [8:00,11:00) reports that slot as a conflict. -/
theorem detect_conflicts_inverted_cex :
    (detect_conflicts [⟨0, 480, 660, "MATH-5A", "Algebra"⟩] [] 0 600 540).conflicts
      ≠ [] := by decide

/-- C8 (amended): no validation error is raised on an inverted interval
(`detect_conflicts` is total and applies the same overlap formula), but
the proposal does not degrade to overlapping nothing: the conflict list is
empty iff no slot on the proposed day satisfies
`proposedStart < slotEnd ∧ slotStart < proposedEnd` — with an inverted
interval, a slot strictly spanning the reversed gap is still reported. -/
theorem detect_conflicts_inverted_interval (slots : List StudentSlot)
    (avail : List Availability) (d : Nat) (pS pE : Int) (hinv : pE < pS) :
    (detect_conflicts slots avail d pS pE).conflicts = [] ↔
      ∀ s ∈ slots, s.day_of_week = d →
        ¬(pS < s.end_time ∧ s.start_time < pE) := by
  rw [detect_conflicts_conflicts_def, conflict_list_eq_nil_iff]
  constructor
  · intro h s hs hd hc
    have := h s hs hd
    simp [times_overlap, Bool.and_eq_true, decide_eq_true_iff, hc.1, hc.2] at this
  · intro h s hs hd
    have := h s hs hd
    rw [Bool.eq_false_iff]
    intro hov
    simp only [times_overlap, Bool.and_eq_true, decide_eq_true_iff] at hov
    exact this hov

/-- Witness for `detect_conflicts_inverted_interval`: the inverted
proposal Monday 10:00→9:00 against a Monday slot [11:00,12:00) (which
does not span the gap) yields an empty conflict list. -/
theorem detect_conflicts_inverted_interval_witness :
    (540 : Int) < 600 ∧
    ((detect_conflicts [⟨0, 660, 720, "SCI-1", "Science"⟩] [] 0 600 540).conflicts = [] ↔
      ∀ s ∈ [(⟨0, 660, 720, "SCI-1", "Science"⟩ : StudentSlot)], s.day_of_week = 0 →
        ¬((600 : Int) < s.end_time ∧ s.start_time < 540)) :=
  ⟨by decide, detect_conflicts_inverted_interval [⟨0, 660, 720, "SCI-1", "Science"⟩]
    [] 0 600 540 (by decide)⟩

/-- C1: verdict resolution is in strict priority order — an overlap with
any existing slot on the proposed day forces NO (with the conflicting
courses named in the reason), regardless of availability; with no such
conflict, a proposal contained in no availability window yields NO, a
first containing window with preference "avoid" yields MAYBE, and any
other containing window yields YES. -/
theorem detect_conflicts_verdict_priority (slots : List StudentSlot)
    (avail : List Availability) (d : Nat) (pS pE : Int) :
    ((∃ s ∈ slots, s.day_of_week = d ∧
        times_overlap pS pE s.start_time s.end_time = true) →
      (detect_conflicts slots avail d pS pE).verdict = "NO" ∧
      (detect_conflicts slots avail d pS pE).conflicts ≠ [] ∧
      (detect_conflicts slots avail d pS pE).reason =
        "Hard conflict with existing course(s): " ++
          String.intercalate ", "
            (((detect_conflicts slots avail d pS pE).conflicts).map (fun c => c.course))) ∧
    ((∀ s ∈ slots, s.day_of_week = d →
        times_overlap pS pE s.start_time s.end_time = false) →
      ((∀ a ∈ avail, a.day_of_week = d → ¬(a.start_time ≤ pS ∧ pE ≤ a.end_time)) →
        (detect_conflicts slots avail d pS pE).verdict = "NO") ∧
      (∀ a, containing_window avail d pS pE = some a →
        (a.preference.getD "available" = "avoid" →
          (detect_conflicts slots avail d pS pE).verdict = "MAYBE") ∧
        (a.preference.getD "available" ≠ "avoid" →
          (detect_conflicts slots avail d pS pE).verdict = "YES"))) := by
  constructor
  · rintro ⟨s, hs, hd, hov⟩
    have hne : conflict_list slots d pS pE ≠ [] := by
      intro h
      have := (conflict_list_eq_nil_iff slots d pS pE).mp h s hs hd
      rw [hov] at this
      exact Bool.true_eq_false.mp this
    obtain ⟨hv, hr⟩ := detect_conflicts_verdict_of_conflict slots avail d pS pE hne
    exact ⟨hv, by rwa [detect_conflicts_conflicts_def], by
      rw [hr, detect_conflicts_conflicts_def]⟩
  · intro hnoc
    have hnil : conflict_list slots d pS pE = [] :=
      (conflict_list_eq_nil_iff slots d pS pE).mpr hnoc
    have hempty : (conflict_list slots d pS pE).isEmpty = true := by
      simp [List.isEmpty_iff, hnil]
    constructor
    · intro hnow
      have hnone : (containing_window avail d pS pE).isSome = false := by
        rw [Bool.eq_false_iff]
        intro hs
        obtain ⟨a, ha, hd, hc⟩ := (containing_window_isSome_iff avail d pS pE).mp hs
        exact hnow a ha hd hc
      unfold detect_conflicts
      simp [hempty, hnone]
    · intro a hca
      have hsome : (containing_window avail d pS pE).isSome = true := by
        simp [hca]
      constructor
      · intro hav
        unfold detect_conflicts
        simp [hempty, hsome, hca, hav]
      · intro hav
        unfold detect_conflicts
        by_cases hpref : a.preference.getD "available" = "preferred"
        · simp [hempty, hsome, hca, hav, hpref]
        · simp [hempty, hsome, hca, hav, hpref]

/-- Witness for `detect_conflicts_verdict_priority` at the spec's
scenario: an existing Monday [9:00,10:00) booking plus an "avoid"
availability window at the same time; proposing Monday [9:00,10:00)
yields NO — the conflict beats the avoid preference. -/
theorem detect_conflicts_verdict_priority_witness :
    (detect_conflicts [⟨0, 540, 600, "MATH-5A", "Algebra"⟩]
      [⟨5, 0, 540, 600, some "avoid"⟩] 0 540 600).verdict = "NO" :=
  ((detect_conflicts_verdict_priority [⟨0, 540, 600, "MATH-5A", "Algebra"⟩]
    [⟨5, 0, 540, 600, some "avoid"⟩] 0 540 600).1 (by decide)).1

/-- C10: `check_in_session` performs no state-machine guard.  For any
existing instance, whatever its current status (pending, missed,
cancelled, completed, rescheduled), the call sets status=completed,
records the check-in timestamp and notes, appends a `check_in` log entry
performed_by=parent, returns the updated row (never an error, never a
no-op). -/
theorem check_in_session_no_guard (db : DB) (session_id : Nat)
    (notes : Option String) (now : Nat) (i : SessionInstance)
    (hi : i ∈ db.session_instances) (hid : i.id = session_id) :
    (∃ j ∈ (check_in_session db session_id notes now).2.session_instances,
        j.id = session_id ∧ j.status = "completed" ∧
        j.checked_in_at = some now ∧ j.notes = notes) ∧
    (⟨session_id, "check_in", "parent", checkInDetails notes⟩ : CheckinLogEntry) ∈
        (check_in_session db session_id notes now).2.checkin_log ∧
    ((check_in_session db session_id notes now).1).isSome = true := by
  have hbeq : (i.id == session_id) = true := by simpa using hid
  have hmem : ({ i with status := "completed", checked_in_at := some now, notes := notes } : SessionInstance) ∈ (check_in_session db session_id notes now).2.session_instances := by
    show _ ∈ db.session_instances.map _
    have := List.mem_map_of_mem
      (fun j =>
        if j.id == session_id then
          { j with status := "completed", checked_in_at := some now, notes := notes }
        else j) hi
    simpa [hbeq] using this
  refine ⟨⟨{ i with status := "completed", checked_in_at := some now, notes := notes },
      hmem, hid, rfl, rfl, rfl⟩, ?_, ?_⟩
  · show _ ∈ db.checkin_log ++ [_]
    simp
  · show (List.find? _ _).isSome = true
    rw [List.find?_isSome]
    exact ⟨_, hmem, hbeq⟩

/-- Witness for `check_in_session_no_guard`: checking in a *cancelled*
instance silently turns it into a completed one with a parent check-in
log entry. -/
theorem check_in_session_no_guard_witness :
    (∃ j ∈ (check_in_session
        ⟨[], [], [], [⟨4, 10, 1, 2, 540, 600, "cancelled", none, none, none, none⟩], [], 5⟩
        4 (some "made up") 99).2.session_instances,
      j.id = 4 ∧ j.status = "completed" ∧ j.checked_in_at = some 99 ∧
        j.notes = some "made up") ∧
    (⟨4, "check_in", "parent", checkInDetails (some "made up")⟩ : CheckinLogEntry) ∈
        (check_in_session
          ⟨[], [], [], [⟨4, 10, 1, 2, 540, 600, "cancelled", none, none, none, none⟩], [], 5⟩
          4 (some "made up") 99).2.checkin_log ∧
    ((check_in_session
        ⟨[], [], [], [⟨4, 10, 1, 2, 540, 600, "cancelled", none, none, none, none⟩], [], 5⟩
        4 (some "made up") 99).1).isSome = true :=
  check_in_session_no_guard
    ⟨[], [], [], [⟨4, 10, 1, 2, 540, 600, "cancelled", none, none, none, none⟩], [], 5⟩
    4 (some "made up") 99 ⟨4, 10, 1, 2, 540, 600, "cancelled", none, none, none, none⟩
    (by decide) rfl

/-- C9 counterexample: called with an unknown session id,
`reschedule_session` does not raise — it returns normally with the
`{"error": "Session not found"}` sentinel (which does not carry the
identifier), leaving the database untouched. -/
theorem reschedule_session_missing_cex :
    reschedule_session (initDB [] [] []) 7 3 540 600 =
      (PyResult.ok (Sum.inl ⟨"Session not found"⟩), initDB [] [] []) := by decide

/-- C9 (amended): for every session id that refers to no existing
instance, `reschedule_session` returns the `{"error": "Session not
found"}` dict (a normal return, not a raised typed error, and without the
identifier in it), creates no new instance and modifies no existing
one — the database is returned unchanged. -/
theorem reschedule_session_missing_returns_error (db : DB)
    (missed_session_id new_date : Nat) (new_start new_end : Int)
    (h : ∀ i ∈ db.session_instances, i.id ≠ missed_session_id) :
    reschedule_session db missed_session_id new_date new_start new_end =
      (PyResult.ok (Sum.inl ⟨"Session not found"⟩), db) := by
  have hnone : db.session_instances.find? (fun i => i.id == missed_session_id)
      = none := by
    rw [List.find?_eq_none]
    intro x hx
    simpa using h x hx
  unfold reschedule_session
  rw [hnone]

/-- Witness for `reschedule_session_missing_returns_error`: a database
holding only instance 3 is returned unchanged when asked to reschedule
id 7. -/
theorem reschedule_session_missing_returns_error_witness :
    reschedule_session
        ⟨[], [], [], [⟨3, 10, 1, 2, 540, 600, "missed", none, none, none, none⟩], [], 4⟩
        7 9 540 600 =
      (PyResult.ok (Sum.inl ⟨"Session not found"⟩),
        ⟨[], [], [], [⟨3, 10, 1, 2, 540, 600, "missed", none, none, none, none⟩], [], 4⟩) :=
  reschedule_session_missing_returns_error
    ⟨[], [], [], [⟨3, 10, 1, 2, 540, 600, "missed", none, none, none, none⟩], [], 4⟩
    7 9 540 600 (by decide)

/-- Any run of `generate_session_instances` only ever appends rows: rows
already present are neither removed nor modified (so a re-run for an
overlapping range cannot reset the status or identity of existing
instances). -/
lemma generate_session_instances_append_only (db : DB)
    (schedule_id start_date end_date : Nat) :
    ∃ t, (generate_session_instances db schedule_id start_date end_date).2.session_instances
      = db.session_instances ++ t := by
  unfold generate_session_instances
  by_cases hs : (get_schedule_slots db schedule_id).isEmpty
  · refine ⟨[], ?_⟩
    simp [hs]
  · by_cases hp : (generate_payloads db schedule_id start_date end_date).isEmpty
    · refine ⟨[], ?_⟩
      simp [hs, hp]
    · simp only [hs, hp, Bool.false_eq_true, if_false]
      exact upsert_many_instances_append db _

/-- C5: `generate_session_instances` is idempotent by the composite key
`(schedule_slot_id, session_date)` — under the spec's upsert contract for
the store, re-running with the same schedule and range returns the same
rows (same ids) and leaves the database exactly as the first run left it
(no duplicates, no status or identity reset); composite-key uniqueness of
the instance table is preserved; and any run (so also one for an
overlapping range) only appends rows, leaving existing instances
untouched. -/
theorem generate_session_instances_idempotent (db : DB)
    (schedule_id start_date end_date : Nat)
    (hnd : keys_nodup db.session_instances) :
    generate_session_instances
        (generate_session_instances db schedule_id start_date end_date).2
        schedule_id start_date end_date
      = generate_session_instances db schedule_id start_date end_date ∧
    keys_nodup
      (generate_session_instances db schedule_id start_date end_date).2.session_instances ∧
    ∃ t, (generate_session_instances db schedule_id start_date end_date).2.session_instances
      = db.session_instances ++ t := by
  have happ := generate_session_instances_append_only db schedule_id start_date end_date
  suffices h : generate_session_instances
        (generate_session_instances db schedule_id start_date end_date).2
        schedule_id start_date end_date
      = generate_session_instances db schedule_id start_date end_date ∧
      keys_nodup
        (generate_session_instances db schedule_id start_date end_date).2.session_instances by
    exact ⟨h.1, h.2, happ⟩
  by_cases hs : (get_schedule_slots db schedule_id).isEmpty
  · have h1 : generate_session_instances db schedule_id start_date end_date = ([], db) := by
      unfold generate_session_instances
      simp [hs]
    rw [h1]
    exact ⟨h1, hnd⟩
  · by_cases hp : (generate_payloads db schedule_id start_date end_date).isEmpty
    · have h1 : generate_session_instances db schedule_id start_date end_date = ([], db) := by
        unfold generate_session_instances
        simp [hs, hp]
      rw [h1]
      exact ⟨h1, hnd⟩
    · set ps := generate_payloads db schedule_id start_date end_date with hps
      have h1 : generate_session_instances db schedule_id start_date end_date =
          upsert_session_instances db ps := by
        unfold generate_session_instances
        simp [hs, ← hps, hp]
      set g2 := (upsert_session_instances db ps).2 with hg2
      have hstat := upsert_many_statics db ps
      have hcongr := generate_payloads_congr hstat.1 schedule_id start_date end_date
      have h2 : generate_session_instances g2 schedule_id start_date end_date =
          upsert_session_instances g2 ps := by
        unfold generate_session_instances
        rw [hcongr.2, hcongr.1, ← hps]
        simp [hs, hp]
      have hpres := upsert_many_all_present db ps
      have hnoop : (upsert_session_instances g2 ps).2 = g2 :=
        upsert_many_db_noop (fun p hp2 => hpres p hp2)
      have hres1 := upsert_many_results db ps
      have hres2 := upsert_many_results g2 ps
      rw [hnoop] at hres2
      have heq : (upsert_session_instances g2 ps).1 =
          (upsert_session_instances db ps).1 :=
        forall₂_find_unique hres2 hres1
      constructor
      · rw [h1, h2]
        exact Prod.ext_iff.mpr ⟨heq, hnoop.trans hg2⟩
      · rw [h1]
        exact upsert_many_keys_nodup hnd

/-- Witness for `generate_session_instances_idempotent`: a schedule with
two weekly slots expanded over two weeks; the second run returns the same
five instances and the same database. -/
theorem generate_session_instances_idempotent_witness :
    generate_session_instances
        (generate_session_instances (initDB [⟨1, 10, 0, 540, 600⟩, ⟨2, 10, 2, 600, 660⟩] [] []) 10 0 14).2
        10 0 14
      = generate_session_instances (initDB [⟨1, 10, 0, 540, 600⟩, ⟨2, 10, 2, 600, 660⟩] [] []) 10 0 14 ∧
    keys_nodup
      (generate_session_instances (initDB [⟨1, 10, 0, 540, 600⟩, ⟨2, 10, 2, 600, 660⟩] [] []) 10 0 14).2.session_instances ∧
    ∃ t, (generate_session_instances (initDB [⟨1, 10, 0, 540, 600⟩, ⟨2, 10, 2, 600, 660⟩] [] []) 10 0 14).2.session_instances
      = (initDB [⟨1, 10, 0, 540, 600⟩, ⟨2, 10, 2, 600, 660⟩] [] []).session_instances ++ t :=
  generate_session_instances_idempotent
    (initDB [⟨1, 10, 0, 540, 600⟩, ⟨2, 10, 2, 600, 660⟩] [] []) 10 0 14
    (by simp [keys_nodup, initDB])

/- ───────────── Reschedule-link invariant lemmas (claim C2) ───────────── -/

lemma resched_upd_id (m k : Nat) (i : SessionInstance) :
    (resched_upd m k i).id = i.id := by
  unfold resched_upd
  cases h : i.id == m <;> simp [h]

lemma resched_upd_from (m k : Nat) (i : SessionInstance) :
    (resched_upd m k i).rescheduled_from = i.rescheduled_from := by
  unfold resched_upd
  cases h : i.id == m <;> simp [h]

lemma resched_upd_of_ne {m : Nat} (k : Nat) {i : SessionInstance}
    (h : (i.id == m) = false) : resched_upd m k i = i := by
  unfold resched_upd
  simp [h]

lemma resched_upd_of_eq {m : Nat} (k : Nat) {i : SessionInstance}
    (h : (i.id == m) = true) :
    resched_upd m k i =
      { i with status := "rescheduled", rescheduled_to := some k } := by
  unfold resched_upd
  simp [h]

/-- The success equation of `reschedule_session`, with the resulting
database written out. -/
lemma reschedule_session_found_eq {db : DB} {missed_session_id : Nat}
    {missed : SessionInstance}
    (hf : db.session_instances.find? (fun i => i.id == missed_session_id)
      = some missed) (new_date : Nat) (new_start new_end : Int) :
    reschedule_session db missed_session_id new_date new_start new_end =
      (PyResult.ok (Sum.inr
        (⟨db.next_id, missed.schedule_id, missed.schedule_slot_id, new_date,
          new_start, new_end, "pending", none, none, some missed_session_id, none⟩ :
          SessionInstance)),
       { db with
         session_instances :=
           (db.session_instances ++
             [(⟨db.next_id, missed.schedule_id, missed.schedule_slot_id, new_date,
               new_start, new_end, "pending", none, none, some missed_session_id, none⟩ :
               SessionInstance)]).map
             (resched_upd missed_session_id db.next_id),
         next_id := db.next_id + 1,
         checkin_log := db.checkin_log ++
           [⟨missed_session_id, "reschedule", "parent",
             [("new_session_id", toString db.next_id),
              ("new_date", toString new_date)]⟩] }) := by
  unfold reschedule_session
  rw [hf]

/-- Field-preserving row updates (status / check-in changes) preserve all
four components of the reschedule-link invariant. -/
lemma inv_map_fields {l : List SessionInstance} {n : Nat}
    (g : SessionInstance → SessionInstance)
    (hid : ∀ i, (g i).id = i.id)
    (hfrom : ∀ i, (g i).rescheduled_from = i.rescheduled_from)
    (hto : ∀ i, (g i).rescheduled_to = i.rescheduled_to)
    (h : ids_below l n ∧ ids_nodup l ∧ links_forward l ∧ from_backward l) :
    ids_below (l.map g) n ∧ ids_nodup (l.map g) ∧
      links_forward (l.map g) ∧ from_backward (l.map g) := by
  obtain ⟨hb, hnd, hlk, hfb⟩ := h
  refine ⟨?_, ?_, ?_, ?_⟩
  · intro i' hi'
    obtain ⟨i, hi, rfl⟩ := List.mem_map.mp hi'
    rw [hid]
    exact hb i hi
  · unfold ids_nodup
    have hcomp : (fun i => (g i).id) = (fun i : SessionInstance => i.id) :=
      funext hid
    rw [List.map_map]
    show ((l.map (fun i => (g i).id))).Nodup
    rw [hcomp]
    exact hnd
  · intro i' hi' t hto'
    obtain ⟨i, hi, rfl⟩ := List.mem_map.mp hi'
    rw [hto] at hto'
    obtain ⟨hlt, j, hj, hjid, hjf⟩ := hlk i hi t hto'
    refine ⟨by rw [hid]; exact hlt, g j, List.mem_map_of_mem g hj, ?_, ?_⟩
    · rw [hid]
      exact hjid
    · rw [hfrom, hjf, hid]
  · intro i' hi' f hf'
    obtain ⟨i, hi, rfl⟩ := List.mem_map.mp hi'
    rw [hfrom] at hf'
    rw [hid]
    exact hfb i hi f hf'

/-- Appending a freshly allocated row whose `rescheduled_to` is unset and
whose `rescheduled_from` (if any) points below the allocator preserves
the invariant, with the allocator advanced. -/
lemma inv_append_fresh {l : List SessionInstance} {n : Nat}
    (h : ids_below l n ∧ ids_nodup l ∧ links_forward l ∧ from_backward l)
    (inst : SessionInstance) (hid : inst.id = n)
    (hfrom : ∀ f, inst.rescheduled_from = some f → f < n)
    (hto : inst.rescheduled_to = none) :
    ids_below (l ++ [inst]) (n + 1) ∧ ids_nodup (l ++ [inst]) ∧
      links_forward (l ++ [inst]) ∧ from_backward (l ++ [inst]) := by
  obtain ⟨hb, hnd, hlk, hfb⟩ := h
  refine ⟨?_, ?_, ?_, ?_⟩
  · intro i hi
    rcases List.mem_append.mp hi with hi | hi
    · exact Nat.lt_succ_of_lt (hb i hi)
    · rw [List.mem_singleton] at hi
      subst hi
      rw [hid]
      exact Nat.lt_succ_self n
  · unfold ids_nodup
    rw [List.map_append]
    refine List.Nodup.append hnd (List.nodup_singleton _) ?_
    intro a ha hb'
    rw [List.map_singleton, List.mem_singleton] at hb'
    obtain ⟨i, hi, rfl⟩ := List.mem_map.mp ha
    have := hb i hi
    rw [hb', hid] at this
    exact Nat.lt_irrefl n this
  · intro i hi t hto'
    rcases List.mem_append.mp hi with hi | hi
    · obtain ⟨hlt, j, hj, hjid, hjf⟩ := hlk i hi t hto'
      exact ⟨hlt, j, List.mem_append_left _ hj, hjid, hjf⟩
    · rw [List.mem_singleton] at hi
      subst hi
      rw [hto] at hto'
      cases hto'
  · intro i hi f hf'
    rcases List.mem_append.mp hi with hi | hi
    · exact hfb i hi f hf'
    · rw [List.mem_singleton] at hi
      subst hi
      rw [hid]
      exact hfrom f hf'

/-- `reschedule_session` preserves the reschedule-link invariant. -/
lemma reschedule_session_inv (db : DB) (mid nd : Nat) (ns ne : Int)
    (h : ReschedInv db) : ReschedInv (reschedule_session db mid nd ns ne).2 := by
  cases hf : db.session_instances.find? (fun i => i.id == mid) with
  | none =>
      have heq : reschedule_session db mid nd ns ne =
          (PyResult.ok (Sum.inl ⟨"Session not found"⟩), db) := by
        unfold reschedule_session
        rw [hf]
      rw [heq]
      exact h
  | some missed =>
      rw [reschedule_session_found_eq hf nd ns ne]
      obtain ⟨hb, hnd, hlk, hfb⟩ := h
      have hmval : missed.id = mid := by simpa using List.find?_some hf
      have hmid_lt : mid < db.next_id := hmval ▸ hb missed (List.mem_of_find?_eq_some hf)
      set n := db.next_id with hn
      set new : SessionInstance :=
        ⟨n, missed.schedule_id, missed.schedule_slot_id, nd, ns, ne, "pending",
         none, none, some mid, none⟩ with hnew
      have hnewid : (new.id == mid) = false := by
        simp only [hnew]
        simp only [beq_eq_false_iff_ne, ne_eq]
        omega
      have hsplit : (db.session_instances ++ [new]).map (resched_upd mid n) =
          db.session_instances.map (resched_upd mid n) ++ [new] := by
        rw [List.map_append, List.map_singleton, resched_upd_of_ne n hnewid]
      refine ⟨?_, ?_, ?_, ?_⟩
      · show ids_below ((db.session_instances ++ [new]).map (resched_upd mid n)) (n + 1)
        rw [hsplit]
        intro i' hi'
        rcases List.mem_append.mp hi' with hi' | hi'
        · obtain ⟨i, hi, rfl⟩ := List.mem_map.mp hi'
          rw [resched_upd_id]
          exact Nat.lt_succ_of_lt (hb i hi)
        · rw [List.mem_singleton] at hi'
          subst hi'
          show new.id < n + 1
          rw [hnew]
          exact Nat.lt_succ_self n
      · show ids_nodup ((db.session_instances ++ [new]).map (resched_upd mid n))
        rw [hsplit]
        unfold ids_nodup
        rw [List.map_append, List.map_map]
        have hcomp : ((fun i : SessionInstance => i.id) ∘ resched_upd mid n) =
            (fun i : SessionInstance => i.id) := by
          funext i
          exact resched_upd_id mid n i
        rw [hcomp, List.map_singleton]
        refine List.Nodup.append hnd (List.nodup_singleton _) ?_
        intro a ha hb'
        rw [List.mem_singleton] at hb'
        obtain ⟨i, hi, rfl⟩ := List.mem_map.mp ha
        have := hb i hi
        rw [hb'] at this
        show False
        have hnn : new.id = n := by rw [hnew]
        rw [hnn] at this
        exact Nat.lt_irrefl n this
      · show links_forward ((db.session_instances ++ [new]).map (resched_upd mid n))
        rw [hsplit]
        intro i' hi' t hto'
        rcases List.mem_append.mp hi' with hi' | hi'
        · obtain ⟨i, hi, rfl⟩ := List.mem_map.mp hi'
          cases hcase : i.id == mid with
          | true =>
              rw [resched_upd_of_eq n hcase] at hto'
              have ht : t = n := by
                have : some n = some t := hto'
                exact (Option.some.inj this).symm
              subst ht
              have hieq : i.id = mid := by simpa using hcase
              constructor
              · rw [resched_upd_id, hieq]
                exact hmid_lt
              · refine ⟨new, List.mem_append_right _ (List.mem_singleton.mpr rfl), ?_, ?_⟩
                · rw [hnew]
                · rw [hnew]
                  show some mid = some ((resched_upd mid n i).id)
                  rw [resched_upd_id, hieq]
          | false =>
              rw [resched_upd_of_ne n hcase] at hto' ⊢
              obtain ⟨hlt, j, hj, hjid, hjf⟩ := hlk i hi t hto'
              refine ⟨hlt, resched_upd mid n j, List.mem_append_left _
                (List.mem_map_of_mem _ hj), ?_, ?_⟩
              · rw [resched_upd_id]
                exact hjid
              · rw [resched_upd_from, hjf]
        · rw [List.mem_singleton] at hi'
          subst hi'
          have : new.rescheduled_to = none := by rw [hnew]
          rw [this] at hto'
          cases hto'
      · show from_backward ((db.session_instances ++ [new]).map (resched_upd mid n))
        rw [hsplit]
        intro i' hi' f hf'
        rcases List.mem_append.mp hi' with hi' | hi'
        · obtain ⟨i, hi, rfl⟩ := List.mem_map.mp hi'
          rw [resched_upd_from] at hf'
          rw [resched_upd_id]
          exact hfb i hi f hf'
        · rw [List.mem_singleton] at hi'
          subst hi'
          have hff : new.rescheduled_from = some mid := by rw [hnew]
          rw [hff] at hf'
          have : f = mid := (Option.some.inj hf').symm
          subst this
          have : new.id = n := by rw [hnew]
          rw [this]
          exact hmid_lt

lemma check_in_session_inv (db : DB) (sid : Nat) (notes : Option String)
    (now : Nat) (h : ReschedInv db) :
    ReschedInv (check_in_session db sid notes now).2 := by
  have := inv_map_fields
    (fun i => if i.id == sid then
      { i with status := "completed", checked_in_at := some now, notes := notes }
    else i)
    (fun i => by cases hc : i.id == sid <;> simp [hc])
    (fun i => by cases hc : i.id == sid <;> simp [hc])
    (fun i => by cases hc : i.id == sid <;> simp [hc]) h
  exact this

lemma mark_one_missed_inv (db : DB) (s : SessionInstance) (h : ReschedInv db) :
    ReschedInv (mark_one_missed db s) := by
  have := inv_map_fields
    (fun i => if i.id == s.id then { i with status := "missed" } else i)
    (fun i => by cases hc : i.id == s.id <;> simp [hc])
    (fun i => by cases hc : i.id == s.id <;> simp [hc])
    (fun i => by cases hc : i.id == s.id <;> simp [hc]) h
  exact this

lemma upsert_row_inv (db : DB) (p : InstancePayload) (h : ReschedInv db) :
    ReschedInv (upsert_row db p).2 := by
  unfold upsert_row
  cases hf : db.session_instances.find? (key_matches p) with
  | some i => exact h
  | none =>
      exact inv_append_fresh h _ rfl (fun f hf' => by cases hf') rfl

lemma upsert_many_inv (db : DB) (ps : List InstancePayload) (h : ReschedInv db) :
    ReschedInv (upsert_session_instances db ps).2 := by
  induction ps generalizing db with
  | nil => exact h
  | cons p ps ih =>
      simp only [upsert_session_instances]
      exact ih (upsert_row db p).2 (upsert_row_inv db p h)

lemma generate_session_instances_inv (db : DB) (sid s e : Nat)
    (h : ReschedInv db) : ReschedInv (generate_session_instances db sid s e).2 := by
  unfold generate_session_instances
  by_cases hs : (get_schedule_slots db sid).isEmpty
  · simp [hs]
    exact h
  · by_cases hp : (generate_payloads db sid s e).isEmpty
    · simp [hs, hp]
      exact h
    · simp [hs, hp]
      exact upsert_many_inv db _ h

lemma sweep_step_inv (finder : DB → Nat → PyResult (List Candidate))
    (st : Option Nat) (auto : Bool) (acc : SweepAcc) (s : SessionInstance)
    (h : ReschedInv acc.db) : ReschedInv (sweep_step finder st auto acc s).db := by
  have h2 : ReschedInv (mark_one_missed acc.db s) := mark_one_missed_inv acc.db s h
  unfold sweep_step
  by_cases hcond : auto && st.isSome
  · rw [if_pos hcond]
    cases hfind : finder (mark_one_missed acc.db s) s.id with
    | raised e => exact h2
    | ok cands =>
        cases cands with
        | nil => exact h2
        | cons best rest =>
            dsimp only
            have h3 : ReschedInv (reschedule_session (mark_one_missed acc.db s)
                s.id best.date best.start_time best.end_time).2 :=
              reschedule_session_inv _ _ _ _ _ h2
            rcases hres : reschedule_session (mark_one_missed acc.db s)
                s.id best.date best.start_time best.end_time with ⟨r, db3⟩
            rw [hres] at h3
            cases r with
            | raised e => exact h3
            | ok v =>
                cases v with
                | inl err => exact h3
                | inr ni => exact h3
  · rw [if_neg hcond]
    exact h2

lemma sweep_fold_inv (finder : DB → Nat → PyResult (List Candidate))
    (st : Option Nat) (auto : Bool) (l : List SessionInstance) (acc : SweepAcc)
    (h : ReschedInv acc.db) :
    ReschedInv ((l.foldl (sweep_step finder st auto) acc).db) := by
  induction l generalizing acc with
  | nil => exact h
  | cons s l ih =>
      exact ih (sweep_step finder st auto acc s) (sweep_step_inv finder st auto acc s h)

lemma mark_missed_sessions_with_inv (finder : DB → Nat → PyResult (List Candidate))
    (db : DB) (st : Option Nat) (auto : Bool) (today : Nat) (h : ReschedInv db) :
    ReschedInv (mark_missed_sessions_with finder db st auto today).2 :=
  sweep_fold_inv finder st auto (overdue_pending db st today) ⟨db, [], []⟩ h

lemma mark_missed_sessions_inv (db : DB) (st : Option Nat) (auto : Bool)
    (today : Nat) (h : ReschedInv db) :
    ReschedInv (mark_missed_sessions db st auto today).2 :=
  mark_missed_sessions_with_inv (auto_finder st today) db st auto today h

lemma stepOp_inv (db : DB) (op : Op) (h : ReschedInv db) :
    ReschedInv (stepOp db op) := by
  cases op with
  | gen sid s e => exact generate_session_instances_inv db sid s e h
  | checkIn sid notes now => exact check_in_session_inv db sid notes now h
  | markMissed st auto today => exact mark_missed_sessions_inv db st auto today h
  | resched mid d s e => exact reschedule_session_inv db mid d s e h

lemma reach_inv (db : DB) (ops : List Op) (h : ReschedInv db) :
    ReschedInv (reach db ops) := by
  induction ops generalizing db with
  | nil => exact h
  | cons op ops ih => exact ih (stepOp db op) (stepOp_inv db op h)

/-- C2 counterexample: replaying generate → reschedule → reschedule of
the replacement leaves the middle instance of the chain with *both*
`rescheduled_from` and `rescheduled_to` set (the second
`reschedule_session` only writes `status` and `rescheduled_to`, so the
replacement's `rescheduled_from` survives), falsifying "exactly one of
the fields is set, never both". -/
theorem session_instance_both_links_cex :
    ∃ i ∈ (reach (initDB [⟨1, 10, 0, 540, 600⟩] [] [])
        [Op.gen 10 0 0, Op.resched 0 7 540 600, Op.resched 1 14 540 600]).session_instances,
      i.rescheduled_from = some 0 ∧ i.rescheduled_to = some 2 := by decide

/-- C2 (amended): after every sequence of the four lifecycle operations
starting from a database with no session instances, ids are pairwise
distinct, every set `rescheduled_to` points at a strictly larger id held
by an instance whose `rescheduled_from` points back (so following
`rescheduled_to` links strictly increases the id and never revisits an
instance — no cycles, and every target was freshly created), and every
set `rescheduled_from` points at a strictly smaller id.  Expander-created
instances start with neither field set; only a replacement that is later
itself rescheduled carries both. -/
theorem session_instance_link_invariant (slots : List ScheduleSlot)
    (scheds : List Schedule) (avail : List Availability) (ops : List Op) :
    ids_nodup (reach (initDB slots scheds avail) ops).session_instances ∧
    links_forward (reach (initDB slots scheds avail) ops).session_instances ∧
    from_backward (reach (initDB slots scheds avail) ops).session_instances := by
  have h0 : ReschedInv (initDB slots scheds avail) := by
    refine ⟨?_, List.nodup_nil, ?_, ?_⟩ <;> intro i hi <;> cases hi
  have h := reach_inv (initDB slots scheds avail) ops h0
  exact ⟨h.2.1, h.2.2.1, h.2.2.2⟩

/-- Witness for `session_instance_link_invariant` on the concrete
generate → reschedule → reschedule run. -/
theorem session_instance_link_invariant_witness :
    ids_nodup (reach (initDB [⟨1, 10, 0, 540, 600⟩] [] [])
      [Op.gen 10 0 0, Op.resched 0 7 540 600, Op.resched 1 14 540 600]).session_instances ∧
    links_forward (reach (initDB [⟨1, 10, 0, 540, 600⟩] [] [])
      [Op.gen 10 0 0, Op.resched 0 7 540 600, Op.resched 1 14 540 600]).session_instances ∧
    from_backward (reach (initDB [⟨1, 10, 0, 540, 600⟩] [] [])
      [Op.gen 10 0 0, Op.resched 0 7 540 600, Op.resched 1 14 540 600]).session_instances :=
  session_instance_link_invariant [⟨1, 10, 0, 540, 600⟩] [] []
    [Op.gen 10 0 0, Op.resched 0 7 540 600, Op.resched 1 14 540 600]

/- ───────────── Sweep lemmas (claims C3 and C4) ───────────── -/

/-- Every branch of the loop body appends the instance (with status
overwritten to "missed") to the `missed` result list. -/
lemma sweep_step_missed_eq (finder : DB → Nat → PyResult (List Candidate))
    (st : Option Nat) (auto : Bool) (acc : SweepAcc) (s : SessionInstance) :
    (sweep_step finder st auto acc s).missed =
      acc.missed ++ [{ s with status := "missed" }] := by
  unfold sweep_step
  by_cases hcond : auto && st.isSome
  · rw [if_pos hcond]
    cases hfind : finder (mark_one_missed acc.db s) s.id with
    | raised e => rfl
    | ok cands =>
        cases cands with
        | nil => rfl
        | cons best rest =>
            dsimp only
            rcases hres : reschedule_session (mark_one_missed acc.db s) s.id
                best.date best.start_time best.end_time with ⟨r, db3⟩
            cases r with
            | raised e => rfl
            | ok v =>
                cases v with
                | inl err => rfl
                | inr ni => rfl
  · rw [if_neg hcond]

/-- The loop body either leaves the `rescheduled` list unchanged or
appends exactly one pair, for the instance just processed. -/
lemma sweep_step_rescheduled_eq (finder : DB → Nat → PyResult (List Candidate))
    (st : Option Nat) (auto : Bool) (acc : SweepAcc) (s : SessionInstance) :
    (sweep_step finder st auto acc s).rescheduled = acc.rescheduled ∨
    ∃ p : ReschedPair,
      (sweep_step finder st auto acc s).rescheduled = acc.rescheduled ++ [p] ∧
      p.missed_session = { s with status := "missed" } := by
  unfold sweep_step
  by_cases hcond : auto && st.isSome
  · rw [if_pos hcond]
    cases hfind : finder (mark_one_missed acc.db s) s.id with
    | raised e => exact Or.inl rfl
    | ok cands =>
        cases cands with
        | nil => exact Or.inl rfl
        | cons best rest =>
            dsimp only
            rcases hres : reschedule_session (mark_one_missed acc.db s) s.id
                best.date best.start_time best.end_time with ⟨r, db3⟩
            cases r with
            | raised e => exact Or.inl rfl
            | ok v =>
                cases v with
                | inl err => exact Or.inl rfl
                | inr ni => exact Or.inr ⟨_, rfl, rfl⟩
  · rw [if_neg hcond]
    exact Or.inl rfl

/-- The sweep's `missed` list is exactly the processed instances, each
with status overwritten to "missed", in order — whatever the finder does. -/
lemma sweep_fold_missed (finder : DB → Nat → PyResult (List Candidate))
    (st : Option Nat) (auto : Bool) (l : List SessionInstance) (acc : SweepAcc) :
    (l.foldl (sweep_step finder st auto) acc).missed =
      acc.missed ++ l.map (fun s => { s with status := "missed" }) := by
  induction l generalizing acc with
  | nil => simp
  | cons s l ih =>
      rw [List.foldl_cons, ih, sweep_step_missed_eq]
      simp

/-- The `rescheduled` list only ever grows during the sweep. -/
lemma sweep_fold_rescheduled_prefix (finder : DB → Nat → PyResult (List Candidate))
    (st : Option Nat) (auto : Bool) (l : List SessionInstance) (acc : SweepAcc) :
    ∃ t, (l.foldl (sweep_step finder st auto) acc).rescheduled =
      acc.rescheduled ++ t := by
  induction l generalizing acc with
  | nil => exact ⟨[], by simp⟩
  | cons s l ih =>
      obtain ⟨t, ht⟩ := ih (sweep_step finder st auto acc s)
      rcases sweep_step_rescheduled_eq finder st auto acc s with h | ⟨p, hp, _⟩
      · exact ⟨t, by rw [List.foldl_cons, ht, h]⟩
      · refine ⟨p :: t, ?_⟩
        rw [List.foldl_cons, ht, hp]
        simp

lemma mem_map_self {g : SessionInstance → SessionInstance} {j : SessionInstance}
    {l : List SessionInstance} (hg : g j = j) (hj : j ∈ l) : j ∈ l.map g := by
  have := List.mem_map_of_mem g hj
  rwa [hg] at this

lemma exists_id_map (g : SessionInstance → SessionInstance)
    (hid : ∀ i, (g i).id = i.id) {l : List SessionInstance} {σ : Nat}
    (h : ∃ j ∈ l, j.id = σ) : ∃ j ∈ l.map g, j.id = σ := by
  obtain ⟨j, hj, hjs⟩ := h
  exact ⟨g j, List.mem_map_of_mem g hj, by rw [hid]; exact hjs⟩

lemma mark_one_missed_exists_id (db : DB) (s : SessionInstance) (σ : Nat)
    (h : ∃ j ∈ db.session_instances, j.id = σ) :
    ∃ j ∈ (mark_one_missed db s).session_instances, j.id = σ :=
  exists_id_map _ (fun i => by cases hc : i.id == s.id <;> simp [hc]) h

lemma reschedule_session_exists_id (db : DB) (mid nd : Nat) (ns ne : Int)
    (σ : Nat) (h : ∃ j ∈ db.session_instances, j.id = σ) :
    ∃ j ∈ (reschedule_session db mid nd ns ne).2.session_instances, j.id = σ := by
  cases hf : db.session_instances.find? (fun i => i.id == mid) with
  | none =>
      have heq : reschedule_session db mid nd ns ne =
          (PyResult.ok (Sum.inl ⟨"Session not found"⟩), db) := by
        unfold reschedule_session
        rw [hf]
      rw [heq]
      exact h
  | some missed =>
      rw [reschedule_session_found_eq hf nd ns ne]
      obtain ⟨j, hj, hjs⟩ := h
      refine ⟨resched_upd mid db.next_id j,
        List.mem_map_of_mem _ (List.mem_append_left _ hj), ?_⟩
      rw [resched_upd_id]
      exact hjs

lemma sweep_step_exists_id (finder : DB → Nat → PyResult (List Candidate))
    (st : Option Nat) (auto : Bool) (acc : SweepAcc) (s : SessionInstance) (σ : Nat)
    (h : ∃ j ∈ acc.db.session_instances, j.id = σ) :
    ∃ j ∈ (sweep_step finder st auto acc s).db.session_instances, j.id = σ := by
  have h2 := mark_one_missed_exists_id acc.db s σ h
  unfold sweep_step
  by_cases hcond : auto && st.isSome
  · rw [if_pos hcond]
    cases hfind : finder (mark_one_missed acc.db s) s.id with
    | raised e => exact h2
    | ok cands =>
        cases cands with
        | nil => exact h2
        | cons best rest =>
            dsimp only
            have h3 := reschedule_session_exists_id (mark_one_missed acc.db s) s.id
              best.date best.start_time best.end_time σ h2
            rcases hres : reschedule_session (mark_one_missed acc.db s) s.id
                best.date best.start_time best.end_time with ⟨r, db3⟩
            rw [hres] at h3
            cases r with
            | raised e => exact h3
            | ok v =>
                cases v with
                | inl err => exact h3
                | inr ni => exact h3
  · rw [if_neg hcond]
    exact h2

lemma mark_one_missed_keeps (db : DB) (s : SessionInstance) (σ : Nat)
    (hne : σ ≠ s.id)
    (h : ∃ j ∈ db.session_instances, j.id = σ ∧ j.status = "missed") :
    ∃ j ∈ (mark_one_missed db s).session_instances,
      j.id = σ ∧ j.status = "missed" := by
  obtain ⟨j, hj, hjid, hjs⟩ := h
  refine ⟨j, ?_, hjid, hjs⟩
  apply mem_map_self ?_ hj
  have hc : (j.id == s.id) = false := by
    rw [hjid]
    simpa using hne
  simp [hc]

lemma reschedule_session_keeps (db : DB) (mid nd : Nat) (ns ne : Int) (σ : Nat)
    (hne : σ ≠ mid)
    (h : ∃ j ∈ db.session_instances, j.id = σ ∧ j.status = "missed") :
    ∃ j ∈ (reschedule_session db mid nd ns ne).2.session_instances,
      j.id = σ ∧ j.status = "missed" := by
  cases hf : db.session_instances.find? (fun i => i.id == mid) with
  | none =>
      have heq : reschedule_session db mid nd ns ne =
          (PyResult.ok (Sum.inl ⟨"Session not found"⟩), db) := by
        unfold reschedule_session
        rw [hf]
      rw [heq]
      exact h
  | some missed =>
      rw [reschedule_session_found_eq hf nd ns ne]
      obtain ⟨j, hj, hjid, hjs⟩ := h
      refine ⟨j, ?_, hjid, hjs⟩
      apply mem_map_self ?_ (List.mem_append_left _ hj)
      apply resched_upd_of_ne
      rw [hjid]
      simpa using hne

lemma sweep_step_keeps (finder : DB → Nat → PyResult (List Candidate))
    (st : Option Nat) (auto : Bool) (acc : SweepAcc) (s : SessionInstance) (σ : Nat)
    (hne : σ ≠ s.id)
    (h : ∃ j ∈ acc.db.session_instances, j.id = σ ∧ j.status = "missed") :
    ∃ j ∈ (sweep_step finder st auto acc s).db.session_instances,
      j.id = σ ∧ j.status = "missed" := by
  have h2 := mark_one_missed_keeps acc.db s σ hne h
  unfold sweep_step
  by_cases hcond : auto && st.isSome
  · rw [if_pos hcond]
    cases hfind : finder (mark_one_missed acc.db s) s.id with
    | raised e => exact h2
    | ok cands =>
        cases cands with
        | nil => exact h2
        | cons best rest =>
            dsimp only
            have h3 := reschedule_session_keeps (mark_one_missed acc.db s) s.id
              best.date best.start_time best.end_time σ hne h2
            rcases hres : reschedule_session (mark_one_missed acc.db s) s.id
                best.date best.start_time best.end_time with ⟨r, db3⟩
            rw [hres] at h3
            cases r with
            | raised e => exact h3
            | ok v =>
                cases v with
                | inl err => exact h3
                | inr ni => exact h3
  · rw [if_neg hcond]
    exact h2

/-- `reschedule_session` never raises, and succeeds whenever the id is
present. -/
lemma reschedule_session_fst_ok (db : DB) (mid nd : Nat) (ns ne : Int) :
    ∃ v, (reschedule_session db mid nd ns ne).1 = PyResult.ok v := by
  cases hf : db.session_instances.find? (fun i => i.id == mid) with
  | none =>
      refine ⟨Sum.inl ⟨"Session not found"⟩, ?_⟩
      unfold reschedule_session
      rw [hf]
  | some missed =>
      refine ⟨Sum.inr (⟨db.next_id, missed.schedule_id, missed.schedule_slot_id,
        nd, ns, ne, "pending", none, none, some mid, none⟩ : SessionInstance), ?_⟩
      rw [reschedule_session_found_eq hf nd ns ne]

lemma reschedule_session_found_inr (db : DB) (mid nd : Nat) (ns ne : Int)
    (h : ∃ i ∈ db.session_instances, i.id = mid) :
    ∃ ni, (reschedule_session db mid nd ns ne).1 = PyResult.ok (Sum.inr ni) := by
  obtain ⟨i, hi, hid⟩ := h
  have : (db.session_instances.find? (fun i => i.id == mid)).isSome = true :=
    List.find?_isSome.mpr ⟨i, hi, by simpa using hid⟩
  obtain ⟨m, hm⟩ := Option.isSome_iff_exists.mp this
  refine ⟨(⟨db.next_id, m.schedule_id, m.schedule_slot_id,
    nd, ns, ne, "pending", none, none, some mid, none⟩ : SessionInstance), ?_⟩
  rw [reschedule_session_found_eq hm nd ns ne]

/-- The loop body either registers a reschedule pair for the processed
instance, or leaves that instance with status "missed" in the database. -/
lemma sweep_step_resched_dichotomy (finder : DB → Nat → PyResult (List Candidate))
    (st : Option Nat) (auto : Bool) (acc : SweepAcc) (s : SessionInstance)
    (hmem : ∃ i ∈ acc.db.session_instances, i.id = s.id) :
    (∃ p : ReschedPair,
        (sweep_step finder st auto acc s).rescheduled = acc.rescheduled ++ [p] ∧
        p.missed_session.id = s.id) ∨
    ((sweep_step finder st auto acc s).rescheduled = acc.rescheduled ∧
      ∃ j ∈ (sweep_step finder st auto acc s).db.session_instances,
        j.id = s.id ∧ j.status = "missed") := by
  have hmissed : ∃ j ∈ (mark_one_missed acc.db s).session_instances,
      j.id = s.id ∧ j.status = "missed" := by
    obtain ⟨i, hi, hid⟩ := hmem
    refine ⟨{ i with status := "missed" }, ?_, hid, rfl⟩
    show _ ∈ acc.db.session_instances.map _
    have hmm := List.mem_map_of_mem
      (fun i => if i.id == s.id then { i with status := "missed" } else i) hi
    have hc : (i.id == s.id) = true := by simpa using hid
    simpa [hc] using hmm
  unfold sweep_step
  by_cases hcond : auto && st.isSome
  · rw [if_pos hcond]
    cases hfind : finder (mark_one_missed acc.db s) s.id with
    | raised e => exact Or.inr ⟨rfl, hmissed⟩
    | ok cands =>
        cases cands with
        | nil => exact Or.inr ⟨rfl, hmissed⟩
        | cons best rest =>
            dsimp only
            have hinr := reschedule_session_found_inr (mark_one_missed acc.db s) s.id
              best.date best.start_time best.end_time
              (by obtain ⟨j, hj, hjid, _⟩ := hmissed; exact ⟨j, hj, hjid⟩)
            rcases hres : reschedule_session (mark_one_missed acc.db s) s.id
                best.date best.start_time best.end_time with ⟨r, db3⟩
            rw [hres] at hinr
            obtain ⟨ni, hni⟩ := hinr
            simp only at hni
            subst hni
            exact Or.inl ⟨_, rfl, rfl⟩
  · rw [if_neg hcond]
    exact Or.inr ⟨rfl, hmissed⟩

/-- An instance whose id is never rescheduled later in the sweep keeps
its "missed" status to the end. -/
lemma sweep_fold_keeps (finder : DB → Nat → PyResult (List Candidate))
    (st : Option Nat) (auto : Bool) (l : List SessionInstance) (acc : SweepAcc)
    (σ : Nat) (hne : ∀ t ∈ l, σ ≠ t.id)
    (h : ∃ j ∈ acc.db.session_instances, j.id = σ ∧ j.status = "missed") :
    ∃ j ∈ ((l.foldl (sweep_step finder st auto) acc).db).session_instances,
      j.id = σ ∧ j.status = "missed" := by
  induction l generalizing acc with
  | nil => exact h
  | cons s l ih =>
      rw [List.foldl_cons]
      exact ih (sweep_step finder st auto acc s)
        (fun t ht => hne t (List.mem_cons_of_mem s ht))
        (sweep_step_keeps finder st auto acc s σ (hne s (List.mem_cons_self s l)) h)

/-- Any processed instance that shows up in no reschedule pair of the
final result ends the sweep with status "missed". -/
lemma sweep_fold_missed_status (finder : DB → Nat → PyResult (List Candidate))
    (st : Option Nat) (auto : Bool) (l : List SessionInstance) (acc : SweepAcc)
    (hpres : ∀ s ∈ l, ∃ i ∈ acc.db.session_instances, i.id = s.id)
    (hnd : (l.map (fun s => s.id)).Nodup) :
    ∀ s ∈ l,
      (∀ r ∈ (l.foldl (sweep_step finder st auto) acc).rescheduled,
          r.missed_session.id ≠ s.id) →
        ∃ j ∈ ((l.foldl (sweep_step finder st auto) acc).db).session_instances,
          j.id = s.id ∧ j.status = "missed" := by
  induction l generalizing acc with
  | nil => intro s hs; cases hs
  | cons s0 l ih =>
      intro s hs hnr
      rw [List.foldl_cons] at hnr ⊢
      rw [List.map_cons, List.nodup_cons] at hnd
      rcases List.mem_cons.mp hs with rfl | hs'
      · rcases sweep_step_resched_dichotomy finder st auto acc s
            (hpres s (List.mem_cons_self s l)) with ⟨p, hp, hpid⟩ | ⟨_, hmiss⟩
        · exfalso
          obtain ⟨t, ht⟩ := sweep_fold_rescheduled_prefix finder st auto l
            (sweep_step finder st auto acc s)
          have hpin : p ∈ (l.foldl (sweep_step finder st auto)
              (sweep_step finder st auto acc s)).rescheduled := by
            rw [ht, hp]
            exact List.mem_append_left _
              (List.mem_append_right _ (List.mem_singleton.mpr rfl))
          exact hnr p hpin hpid
        · refine sweep_fold_keeps finder st auto l (sweep_step finder st auto acc s)
            s.id ?_ hmiss
          intro t ht hts
          exact hnd.1 (hts ▸ List.mem_map_of_mem (fun s => s.id) ht)
      · exact ih (sweep_step finder st auto acc s0)
          (fun t ht => sweep_step_exists_id finder st auto acc s0 t.id
            (hpres t (List.mem_cons_of_mem s0 ht)))
          hnd.2 s hs' hnr

lemma overdue_pending_mem (db : DB) (st : Option Nat) (today : Nat) :
    ∀ s ∈ overdue_pending db st today, s ∈ db.session_instances := by
  intro s hs
  unfold overdue_pending at hs
  cases st with
  | none => exact (List.mem_filter.mp hs).1
  | some sid =>
      dsimp only at hs
      by_cases hids : ((active_schedules db sid).map (fun s => s.id)).isEmpty
      · rw [if_pos hids] at hs
        cases hs
      · rw [if_neg hids] at hs
        exact (List.mem_filter.mp (List.mem_filter.mp hs).1).1

lemma overdue_pending_sublist (db : DB) (st : Option Nat) (today : Nat) :
    (overdue_pending db st today).Sublist db.session_instances := by
  unfold overdue_pending
  cases st with
  | none => exact List.filter_sublist _
  | some sid =>
      dsimp only
      by_cases hids : ((active_schedules db sid).map (fun s => s.id)).isEmpty
      · rw [if_pos hids]
        exact List.nil_sublist _
      · rw [if_neg hids]
        exact (List.filter_sublist _).trans (List.filter_sublist _)

/-- C4: the sweep contains per-instance reschedule failures.  For *any*
behaviour of the reschedule attempt — including a finder that throws for
some or all instances, modelled by universally quantifying over the
injected `finder` — every overdue pending instance is still processed:
the returned `missed` list is exactly the overdue list (statuses
overwritten to "missed", so no exception ever propagates out of the
sweep), and any instance for which no reschedule pair was produced ends
the sweep with status "missed" in the database. -/
theorem mark_missed_sessions_fault_containment
    (finder : DB → Nat → PyResult (List Candidate)) (db : DB)
    (student_id : Option Nat) (auto : Bool) (today : Nat)
    (hnd : ids_nodup db.session_instances) :
    (mark_missed_sessions_with finder db student_id auto today).1.missed =
      (overdue_pending db student_id today).map
        (fun s => { s with status := "missed" }) ∧
    ∀ s ∈ overdue_pending db student_id today,
      (∀ r ∈ (mark_missed_sessions_with finder db student_id auto today).1.rescheduled,
          r.missed_session.id ≠ s.id) →
        ∃ j ∈ (mark_missed_sessions_with finder db student_id auto today).2.session_instances,
          j.id = s.id ∧ j.status = "missed" := by
  constructor
  · show ((overdue_pending db student_id today).foldl
        (sweep_step finder student_id auto) ⟨db, [], []⟩).missed = _
    rw [sweep_fold_missed]
    simp
  · intro s hs hnr
    refine sweep_fold_missed_status finder student_id auto
      (overdue_pending db student_id today) ⟨db, [], []⟩ ?_ ?_ s hs hnr
    · intro t ht
      exact ⟨t, overdue_pending_mem db student_id today t ht, rfl⟩
    · exact List.Nodup.sublist
        (List.Sublist.map (fun s => s.id) (overdue_pending_sublist db student_id today))
        hnd

/-- Witness for `mark_missed_sessions_fault_containment` at the spec's
test scenario: three overdue pending instances, a finder that throws for
the second; all three still end up missed and the first and third are
rescheduled. -/
theorem mark_missed_sessions_fault_containment_witness :
    (mark_missed_sessions_with
        (fun _ msid => if msid == 1 then PyResult.raised "db error"
          else PyResult.ok [⟨7, "Mon", 540, 600, "available", false⟩])
        ⟨[], [⟨10, 5, "active"⟩], [],
         [⟨0, 10, 1, 0, 540, 600, "pending", none, none, none, none⟩,
          ⟨1, 10, 1, 1, 540, 600, "pending", none, none, none, none⟩,
          ⟨2, 10, 1, 2, 540, 600, "pending", none, none, none, none⟩], [], 3⟩
        (some 5) true 3).1.missed =
      (overdue_pending
        ⟨[], [⟨10, 5, "active"⟩], [],
         [⟨0, 10, 1, 0, 540, 600, "pending", none, none, none, none⟩,
          ⟨1, 10, 1, 1, 540, 600, "pending", none, none, none, none⟩,
          ⟨2, 10, 1, 2, 540, 600, "pending", none, none, none, none⟩], [], 3⟩
        (some 5) 3).map (fun s => { s with status := "missed" }) ∧
    ∀ s ∈ overdue_pending
        ⟨[], [⟨10, 5, "active"⟩], [],
         [⟨0, 10, 1, 0, 540, 600, "pending", none, none, none, none⟩,
          ⟨1, 10, 1, 1, 540, 600, "pending", none, none, none, none⟩,
          ⟨2, 10, 1, 2, 540, 600, "pending", none, none, none, none⟩], [], 3⟩
        (some 5) 3,
      (∀ r ∈ (mark_missed_sessions_with
          (fun _ msid => if msid == 1 then PyResult.raised "db error"
            else PyResult.ok [⟨7, "Mon", 540, 600, "available", false⟩])
          ⟨[], [⟨10, 5, "active"⟩], [],
           [⟨0, 10, 1, 0, 540, 600, "pending", none, none, none, none⟩,
            ⟨1, 10, 1, 1, 540, 600, "pending", none, none, none, none⟩,
            ⟨2, 10, 1, 2, 540, 600, "pending", none, none, none, none⟩], [], 3⟩
          (some 5) true 3).1.rescheduled,
          r.missed_session.id ≠ s.id) →
        ∃ j ∈ (mark_missed_sessions_with
            (fun _ msid => if msid == 1 then PyResult.raised "db error"
              else PyResult.ok [⟨7, "Mon", 540, 600, "available", false⟩])
            ⟨[], [⟨10, 5, "active"⟩], [],
             [⟨0, 10, 1, 0, 540, 600, "pending", none, none, none, none⟩,
              ⟨1, 10, 1, 1, 540, 600, "pending", none, none, none, none⟩,
              ⟨2, 10, 1, 2, 540, 600, "pending", none, none, none, none⟩], [], 3⟩
            (some 5) true 3).2.session_instances,
          j.id = s.id ∧ j.status = "missed" :=
  mark_missed_sessions_fault_containment
    (fun _ msid => if msid == 1 then PyResult.raised "db error"
      else PyResult.ok [⟨7, "Mon", 540, 600, "available", false⟩])
    ⟨[], [⟨10, 5, "active"⟩], [],
     [⟨0, 10, 1, 0, 540, 600, "pending", none, none, none, none⟩,
      ⟨1, 10, 1, 1, 540, 600, "pending", none, none, none, none⟩,
      ⟨2, 10, 1, 2, 540, 600, "pending", none, none, none, none⟩], [], 3⟩
    (some 5) true 3 (by unfold ids_nodup; decide)

/-- C3 counterexample: with `auto_reschedule` set but the optional
`student_id` omitted, the guard `if auto_reschedule and student_id:`
(queries.py:423) prevents any reschedule: the overdue instance is marked
missed yet the `rescheduled` list stays empty and no replacement is
created, even though the finder — run on the resulting database — does
return a candidate. -/
theorem mark_missed_sessions_none_student_cex :
    (mark_missed_sessions ⟨[⟨1, 10, 0, 540, 600⟩], [⟨10, 5, "active"⟩],
        [⟨5, 0, 540, 720, some "available"⟩, ⟨5, 2, 540, 720, some "available"⟩],
        [⟨0, 10, 1, 0, 540, 600, "pending", none, none, none, none⟩], [], 1⟩
      none true 3).1.rescheduled = [] ∧
    (∃ j ∈ (mark_missed_sessions ⟨[⟨1, 10, 0, 540, 600⟩], [⟨10, 5, "active"⟩],
        [⟨5, 0, 540, 720, some "available"⟩, ⟨5, 2, 540, 720, some "available"⟩],
        [⟨0, 10, 1, 0, 540, 600, "pending", none, none, none, none⟩], [], 1⟩
      none true 3).2.session_instances,
      j.id = 0 ∧ j.status = "missed" ∧ j.rescheduled_to = none) ∧
    find_available_reschedule_slots
      (mark_missed_sessions ⟨[⟨1, 10, 0, 540, 600⟩], [⟨10, 5, "active"⟩],
        [⟨5, 0, 540, 720, some "available"⟩, ⟨5, 2, 540, 720, some "available"⟩],
        [⟨0, 10, 1, 0, 540, 600, "pending", none, none, none, none⟩], [], 1⟩
      none true 3).2 5 0 7 3 ≠ [] := by decide

/-- C3 (amended): when `auto_reschedule` is set *and* a student id is
supplied, each newly-missed instance is processed by invoking the real
reschedule finder on the post-miss database; if it returns a first
candidate `c`, the instance is immediately rescheduled to `c`: the loop
body leaves a fresh pending replacement dated and timed as `c` with
`rescheduled_from` set, flips the old instance to status "rescheduled"
pointing at the replacement, appends a log entry with action=reschedule,
performed_by=system and `auto: true` in its details, and records the pair
in the `rescheduled` result list. -/
theorem sweep_step_auto_reschedule (sid today : Nat) (acc : SweepAcc)
    (s : SessionInstance) (c : Candidate) (cs : List Candidate)
    (hmem : ∃ i ∈ acc.db.session_instances, i.id = s.id)
    (hfresh : s.id < acc.db.next_id)
    (hfind : find_available_reschedule_slots (mark_one_missed acc.db s)
      sid s.id 7 today = c :: cs) :
    (sweep_step (auto_finder (some sid) today) (some sid) true acc s).missed =
      acc.missed ++ [{ s with status := "missed" }] ∧
    (∃ j ∈ (sweep_step (auto_finder (some sid) today) (some sid) true acc s).db.session_instances,
      j.rescheduled_from = some s.id ∧ j.session_date = c.date ∧
      j.start_time = c.start_time ∧ j.end_time = c.end_time ∧ j.status = "pending") ∧
    (∃ j ∈ (sweep_step (auto_finder (some sid) today) (some sid) true acc s).db.session_instances,
      j.id = s.id ∧ j.status = "rescheduled" ∧
      j.rescheduled_to = some acc.db.next_id) ∧
    ((⟨s.id, "reschedule", "system",
        [("auto", "true"), ("new_date", toString c.date),
         ("new_time", toString c.start_time ++ "–" ++ toString c.end_time)]⟩ :
        CheckinLogEntry) ∈
      (sweep_step (auto_finder (some sid) today) (some sid) true acc s).db.checkin_log) ∧
    (∃ r ∈ (sweep_step (auto_finder (some sid) today) (some sid) true acc s).rescheduled,
      r.missed_session = { s with status := "missed" } ∧ r.new_date = c.date ∧
      r.new_start = c.start_time ∧ r.new_end = c.end_time) := by
  have hmem2 : ∃ i ∈ (mark_one_missed acc.db s).session_instances, i.id = s.id :=
    mark_one_missed_exists_id acc.db s s.id hmem
  have hsome : ((mark_one_missed acc.db s).session_instances.find?
      (fun i => i.id == s.id)).isSome = true := by
    obtain ⟨i, hi, hid⟩ := hmem2
    exact List.find?_isSome.mpr ⟨i, hi, by simpa using hid⟩
  obtain ⟨m, hm⟩ := Option.isSome_iff_exists.mp hsome
  have heqr := reschedule_session_found_eq hm c.date c.start_time c.end_time
  have hf1 : auto_finder (some sid) today (mark_one_missed acc.db s) s.id =
      PyResult.ok (c :: cs) := by
    unfold auto_finder
    dsimp only
    rw [hfind]
  have hnext : (mark_one_missed acc.db s).next_id = acc.db.next_id := rfl
  unfold sweep_step
  dsimp only
  have hcond : (true && (Option.isSome (some sid))) = true := rfl
  rw [if_pos hcond, hf1]
  dsimp only
  rw [heqr]
  dsimp only
  refine ⟨rfl, ?_, ?_, ?_, ?_⟩
  · refine ⟨⟨(mark_one_missed acc.db s).next_id, m.schedule_id, m.schedule_slot_id,
      c.date, c.start_time, c.end_time, "pending", none, none, some s.id, none⟩, ?_, rfl, rfl, rfl, rfl, rfl⟩
    apply mem_map_self
    · apply resched_upd_of_ne
      show ((mark_one_missed acc.db s).next_id == s.id) = false
      rw [hnext]
      have : acc.db.next_id ≠ s.id := Nat.ne_of_gt hfresh
      simpa using this
    · exact List.mem_append_right _ (List.mem_singleton.mpr rfl)
  · obtain ⟨i, hi, hid⟩ := hmem2
    have hc : (i.id == s.id) = true := by simpa using hid
    refine ⟨resched_upd s.id (mark_one_missed acc.db s).next_id i,
      List.mem_map_of_mem _ (List.mem_append_left _ hi), ?_, ?_, ?_⟩
    · rw [resched_upd_id]
      exact hid
    · rw [resched_upd_of_eq _ hc]
    · rw [resched_upd_of_eq _ hc]
      rfl
  · exact List.mem_append_right _ (List.mem_singleton.mpr rfl)
  · exact ⟨_, List.mem_append_right _ (List.mem_singleton.mpr rfl), rfl, rfl, rfl, rfl⟩

/-- Witness for `sweep_step_auto_reschedule`: one overdue Monday session,
availability on Monday and Wednesday 9:00–12:00; the finder proposes next
Monday 9:00–10:00 and the loop body installs it. -/
theorem sweep_step_auto_reschedule_witness :
    (sweep_step (auto_finder (some 5) 3) (some 5) true
        ⟨⟨[⟨1, 10, 0, 540, 600⟩], [⟨10, 5, "active"⟩],
          [⟨5, 0, 540, 720, some "available"⟩, ⟨5, 2, 540, 720, some "available"⟩],
          [⟨0, 10, 1, 0, 540, 600, "pending", none, none, none, none⟩], [], 1⟩, [], []⟩
        ⟨0, 10, 1, 0, 540, 600, "pending", none, none, none, none⟩).missed =
      [] ++ [{ (⟨0, 10, 1, 0, 540, 600, "pending", none, none, none, none⟩ :
        SessionInstance) with status := "missed" }] ∧
    (∃ j ∈ (sweep_step (auto_finder (some 5) 3) (some 5) true
        ⟨⟨[⟨1, 10, 0, 540, 600⟩], [⟨10, 5, "active"⟩],
          [⟨5, 0, 540, 720, some "available"⟩, ⟨5, 2, 540, 720, some "available"⟩],
          [⟨0, 10, 1, 0, 540, 600, "pending", none, none, none, none⟩], [], 1⟩, [], []⟩
        ⟨0, 10, 1, 0, 540, 600, "pending", none, none, none, none⟩).db.session_instances,
      j.rescheduled_from = some 0 ∧
      j.session_date = (⟨7, "Mon", 540, 600, "available", false⟩ : Candidate).date ∧
      j.start_time = (⟨7, "Mon", 540, 600, "available", false⟩ : Candidate).start_time ∧
      j.end_time = (⟨7, "Mon", 540, 600, "available", false⟩ : Candidate).end_time ∧
      j.status = "pending") ∧
    (∃ j ∈ (sweep_step (auto_finder (some 5) 3) (some 5) true
        ⟨⟨[⟨1, 10, 0, 540, 600⟩], [⟨10, 5, "active"⟩],
          [⟨5, 0, 540, 720, some "available"⟩, ⟨5, 2, 540, 720, some "available"⟩],
          [⟨0, 10, 1, 0, 540, 600, "pending", none, none, none, none⟩], [], 1⟩, [], []⟩
        ⟨0, 10, 1, 0, 540, 600, "pending", none, none, none, none⟩).db.session_instances,
      j.id = 0 ∧ j.status = "rescheduled" ∧ j.rescheduled_to = some 1) ∧
    ((⟨0, "reschedule", "system",
        [("auto", "true"),
         ("new_date", toString (⟨7, "Mon", 540, 600, "available", false⟩ : Candidate).date),
         ("new_time", toString (⟨7, "Mon", 540, 600, "available", false⟩ : Candidate).start_time
           ++ "–" ++ toString (⟨7, "Mon", 540, 600, "available", false⟩ : Candidate).end_time)]⟩ :
        CheckinLogEntry) ∈
      (sweep_step (auto_finder (some 5) 3) (some 5) true
        ⟨⟨[⟨1, 10, 0, 540, 600⟩], [⟨10, 5, "active"⟩],
          [⟨5, 0, 540, 720, some "available"⟩, ⟨5, 2, 540, 720, some "available"⟩],
          [⟨0, 10, 1, 0, 540, 600, "pending", none, none, none, none⟩], [], 1⟩, [], []⟩
        ⟨0, 10, 1, 0, 540, 600, "pending", none, none, none, none⟩).db.checkin_log) ∧
    (∃ r ∈ (sweep_step (auto_finder (some 5) 3) (some 5) true
        ⟨⟨[⟨1, 10, 0, 540, 600⟩], [⟨10, 5, "active"⟩],
          [⟨5, 0, 540, 720, some "available"⟩, ⟨5, 2, 540, 720, some "available"⟩],
          [⟨0, 10, 1, 0, 540, 600, "pending", none, none, none, none⟩], [], 1⟩, [], []⟩
        ⟨0, 10, 1, 0, 540, 600, "pending", none, none, none, none⟩).rescheduled,
      r.missed_session = { (⟨0, 10, 1, 0, 540, 600, "pending", none, none, none, none⟩ :
        SessionInstance) with status := "missed" } ∧
      r.new_date = (⟨7, "Mon", 540, 600, "available", false⟩ : Candidate).date ∧
      r.new_start = (⟨7, "Mon", 540, 600, "available", false⟩ : Candidate).start_time ∧
      r.new_end = (⟨7, "Mon", 540, 600, "available", false⟩ : Candidate).end_time) := by
  have h := sweep_step_auto_reschedule 5 3
    ⟨⟨[⟨1, 10, 0, 540, 600⟩], [⟨10, 5, "active"⟩],
      [⟨5, 0, 540, 720, some "available"⟩, ⟨5, 2, 540, 720, some "available"⟩],
      [⟨0, 10, 1, 0, 540, 600, "pending", none, none, none, none⟩], [], 1⟩, [], []⟩
    ⟨0, 10, 1, 0, 540, 600, "pending", none, none, none, none⟩
    ⟨7, "Mon", 540, 600, "available", false⟩
    [⟨9, "Wed", 540, 600, "available", false⟩]
    (by decide) (by decide) (by decide)
  exact ⟨h.1, h.2.1, h.2.2.1, h.2.2.2.1, h.2.2.2.2⟩

end CalSched
